import Mathlib

/-!
# solterminal: token discovery, deduplication and notification pipeline

A shallow embedding of `src/services/TokenMonitor.js`, `src/index.js` and
`src/services/TelegramService.js`.

Modelling conventions.

* JavaScript numbers are rationals (`ℚ`).  The divisions of `formatNumber` are
  binary64 divisions: the exact quotient is rounded to the nearest binary64
  value (`binary64`, `fdiv`).  Sums, differences and products are exact.  The
  only place where the text of a number depends on the shortest decimal form of
  a binary64 value (exponent notation, fractions printed by `Number::toString`)
  is taken as a parameter `flt : ℚ → String`.
* A JavaScript `Set` of mints is a list of strings without regard to order;
  `Set.prototype.add` is `setAdd`, `Set.prototype.has` is list membership.
* Every `await`ed remote call is replaced by its outcome, supplied by the
  caller (`Remote`, `CycleEnv`); every `Date.now()` reading is supplied the same
  way.
* An undefined property is `none`.
-/

namespace SolTerminal

/-! ## Data model -/

/-- Token Record: the object literal built by `parseTrackerToken`,
`parseHeliusToken` and `getTokenInfo`. -/
structure Token where
  mint : String
  name : Option String
  symbol : Option String
  decimals : Option ℚ
  description : Option String
  image : Option String
  createdTime : ℚ
  creator : Option String
  liquidityUsd : ℚ
  marketCapUsd : ℚ
  priceUsd : Option ℚ
  holders : Option ℚ
  risky : Bool
  poolAddress : Option String
  market : Option String
deriving DecidableEq

/-- Configuration values read by the pipeline (`src/config/Config.js`). -/
structure Config where
  solanaTrackerApiKey : Option String
  heliusApiKey : Option String
  checkIntervalMinutes : ℚ
  minLiquidityUsd : ℚ
  minMarketCapUsd : ℚ
  maxAgeMinutes : ℚ

/-- Truthiness of an optional string: `undefined` and the empty string are falsy. -/
def truthyStr : Option String → Bool
  | some s => s ≠ ""
  | none => false

/-- Truthiness of an optional number: `undefined` and `0` are falsy. -/
def truthyNum : Option ℚ → Bool
  | some v => v ≠ 0
  | none => false

/-- The expression `v || 0` for an optional number. -/
def orZero : Option ℚ → ℚ
  | some v => v
  | none => 0

/-- `Set.prototype.add` on the list representation of a set of mints. -/
def setAdd (s : List String) (m : String) : List String :=
  if m ∈ s then s else s ++ [m]

/-- The loop `tokens.forEach(token => set.add(token.mint))`. -/
def addMints (s : List String) (tokens : List Token) : List String :=
  tokens.foldl (fun acc t => setAdd acc t.mint) s

/-! ## Number rendering -/

/-- Left padding with the character `0` up to width `d`. -/
def padZeros (d : Nat) (s : String) : String :=
  String.mk (List.replicate (d - s.length) '0') ++ s

/-- Fixed-notation digits of a non-negative number: with `r` the integer nearest
to `x * 10 ^ d` (the larger one on a tie), the integer part `r / 10 ^ d`, a
point and the `d` digits of `r % 10 ^ d`. -/
def fixedDigits (d : Nat) (x : ℚ) : String :=
  let r := ⌊x * 10 ^ d + 1 / 2⌋.toNat
  Nat.repr (r / 10 ^ d) ++ (if d = 0 then "" else "." ++ padZeros d (Nat.repr (r % 10 ^ d)))

/-- `Number.prototype.toFixed(d)`: for a magnitude of at least `10 ^ 21` the
result is `Number::toString` of the magnitude (exponent notation, supplied by
`flt`), otherwise fixed notation; a negative number gets a leading minus sign. -/
def toFixed (flt : ℚ → String) (d : Nat) (x : ℚ) : String :=
  (if x < 0 then "-" else "") ++
    (if 10 ^ 21 ≤ |x| then flt |x| else fixedDigits d |x|)

/-- `Number::toString` (template-literal interpolation of a number): an integer
of magnitude below `10 ^ 21` is printed as its decimal digits; every other value
is printed by `flt`. -/
def numberToString (flt : ℚ → String) (x : ℚ) : String :=
  if x.den = 1 ∧ |x| < 10 ^ 21 then
    (if x < 0 then "-" else "") ++ Nat.repr x.num.natAbs
  else flt x

/-- Rounding of a rational to the nearest integer, a tie going to the even
one. -/
def roundHalfEven (y : ℚ) : ℤ :=
  if y - ⌊y⌋ < 1 / 2 then ⌊y⌋
  else if 1 / 2 < y - ⌊y⌋ then ⌊y⌋ + 1
  else if ⌊y⌋ % 2 = 0 then ⌊y⌋ else ⌊y⌋ + 1

/-- The binary64 value nearest to `x` (round to nearest, ties to even): with `e`
the binary exponent of `x`, not below -1022 (subnormal range), the multiple of
`2 ^ (e - 52)` nearest to `x`.  Overflow to infinity, beyond the largest finite
binary64 value, is not represented; a quotient of a binary64 value by `1e3`,
`1e6` or `1e9` does not reach it. -/
def binary64 (x : ℚ) : ℚ :=
  (roundHalfEven (x / 2 ^ (max (Int.log 2 |x|) (-1022) - 52)) : ℚ) *
    2 ^ (max (Int.log 2 |x|) (-1022) - 52)

/-- The JavaScript quotient `a / b` of two numbers: the exact quotient rounded
to binary64. -/
def fdiv (a b : ℚ) : ℚ := binary64 (a / b)

/-- `formatNumber(num)` of `src/index.js` (lines 129-134); the copy in
`TelegramService.js` (lines 100-105) has the same body. -/
def formatNumber (flt : ℚ → String) (num : ℚ) : String :=
  if num ≥ 10 ^ 9 then toFixed flt 2 (fdiv num (10 ^ 9)) ++ "B"
  else if num ≥ 10 ^ 6 then toFixed flt 2 (fdiv num (10 ^ 6)) ++ "M"
  else if num ≥ 10 ^ 3 then toFixed flt 2 (fdiv num (10 ^ 3)) ++ "K"
  else toFixed flt 2 num

/-- Interpolation of an optional string in a template literal. -/
def strOrUndefined : Option String → String
  | some s => s
  | none => "undefined"

/-- `formatTokenMessage(token)` of `src/index.js` (lines 105-127); `now` is the
`Date.now()` reading of line 106. -/
def formatTokenMessage (flt : ℚ → String) (now : ℚ) (token : Token) : String :=
  let age : ℚ := (⌊(now - token.createdTime) / 60000⌋ : ℤ)
  let riskEmoji := if token.risky then "⚠️" else "✅"
  "🪙 **New Token Detected** " ++ riskEmoji ++ "\n\n" ++
  "**" ++ strOrUndefined token.name ++ "** (" ++ strOrUndefined token.symbol ++ ")\n" ++
  "📍 **Address:** `" ++ token.mint ++ "`\n" ++
  "💰 **Market Cap:** $" ++ formatNumber flt token.marketCapUsd ++ "\n" ++
  "💧 **Liquidity:** $" ++ formatNumber flt token.liquidityUsd ++ "\n" ++
  "📊 **Price:** $" ++
    (if truthyNum token.priceUsd then toFixed flt 8 (orZero token.priceUsd) else "N/A") ++ "\n" ++
  "👥 **Holders:** " ++
    (if truthyNum token.holders then numberToString flt (orZero token.holders) else "N/A") ++ "\n" ++
  "⏰ **Age:** " ++ numberToString flt age ++ " minutes\n\n" ++
  "🔗 **Links:**\n" ++
  "• [DexScreener](https://dexscreener.com/solana/" ++ token.mint ++ ")\n" ++
  "• [Solscan](https://solscan.io/token/" ++ token.mint ++ ")\n" ++
  "• [Jupiter](https://jup.ag/swap/SOL-" ++ token.mint ++ ")\n\n" ++
  (if truthyStr token.description then
      "📝 **Description:** " ++ strOrUndefined token.description else "") ++ "\n\n" ++
  "#Solana #NewToken #" ++ strOrUndefined token.symbol

/-! ## Remote payloads -/

/-- The object `tokenData.token.creation` of a Solana Tracker record. -/
structure TrackerCreation where
  created_time : Option ℚ
  creator : Option String

/-- The object `tokenData.token` of a Solana Tracker record. -/
structure TrackerTokenInfo where
  mint : String
  name : Option String
  symbol : Option String
  decimals : Option ℚ
  description : Option String
  image : Option String
  creation : Option TrackerCreation

/-- One entry of `tokenData.pools`; `liquidityUsd` stands for
`pool.liquidity?.usd`, and likewise for the market cap and the price. -/
structure TrackerPool where
  liquidityUsd : Option ℚ
  marketCapUsd : Option ℚ
  priceUsd : Option ℚ
  poolId : Option String
  market : Option String

/-- The risk payload `tokenData.risk`; `snipersCount` stands for
`riskData.snipers?.count`, `insidersCount` for `riskData.insiders?.count`. -/
structure RiskData where
  rugged : Bool
  score : Option ℚ
  snipersCount : Option ℚ
  insidersCount : Option ℚ

/-- One element of the Solana Tracker response body. -/
structure TrackerRecord where
  token : Option TrackerTokenInfo
  pools : Option (List TrackerPool)
  holders : Option ℚ
  risk : Option RiskData

/-- One element of the Helius response body. -/
structure HeliusRecord where
  mint : String
  name : Option String
  symbol : Option String
  decimals : Option ℚ
  description : Option String
  image : Option String

/-- What the ledger answers for one token account scanned by `getTokensFromRPC`:
`mint` is the key decoded by `getTokenInfo` (`none` when `getAccountInfo` throws
or returns null, or the key cannot be decoded), `hasMetadata` tells whether
`getTokenMetadata` found the metadata account. -/
structure RpcAccount where
  mint : Option String
  hasMetadata : Bool

/-- Outcomes of the remote calls and clock readings of one `getNewTokens` call.
`tracker`, `helius`: the response body as a list, `none` when the request fails
or the body is not a list.  `rpc`: the result of `getProgramAccounts`, `none`
when it throws.  `trackerNow`, `heliusNow`, `rpcNow`: `Date.now()` while the
respective records are built; `now`: `Date.now()` during the filter pass. -/
structure Remote where
  tracker : Option (List TrackerRecord)
  helius : Option (List HeliusRecord)
  rpc : Option (List RpcAccount)
  trackerNow : ℚ
  heliusNow : ℚ
  rpcNow : ℚ
  now : ℚ

/-! ## TokenMonitor -/

namespace TokenMonitor

/-- `isTokenNew(token)` (lines 246-250); `now` is the `Date.now()` reading. -/
def isTokenNew (cfg : Config) (now : ℚ) (token : Token) : Bool :=
  decide (now - token.createdTime ≤ cfg.maxAgeMinutes * 60 * 1000)

/-- `assessRisk(riskData)` (lines 252-261). -/
def assessRisk : Option RiskData → Bool
  | none => false
  | some r =>
    r.rugged ||
    (match r.score with | some s => decide (s > 50) | none => false) ||
    (match r.snipersCount with | some c => decide (c > 0) | none => false) ||
    (match r.insidersCount with | some c => decide (c > 0) | none => false)

/-- `parseTrackerToken(tokenData)` (lines 93-114); `none` stands for the
TypeError raised by `token.mint` when `tokenData.token` is undefined. -/
def parseTrackerToken (now : ℚ) (tokenData : TrackerRecord) : Option Token :=
  match tokenData.token with
  | none => none
  | some token =>
    let pool : Option TrackerPool := tokenData.pools.bind List.head?
    some {
      mint := token.mint
      name := token.name
      symbol := token.symbol
      decimals := token.decimals
      description := token.description
      image := token.image
      createdTime :=
        if truthyNum (token.creation.bind (·.created_time))
        then orZero (token.creation.bind (·.created_time)) * 1000 else now
      creator := token.creation.bind (·.creator)
      liquidityUsd := orZero (pool.bind (·.liquidityUsd))
      marketCapUsd := orZero (pool.bind (·.marketCapUsd))
      priceUsd := some (orZero (pool.bind (·.priceUsd)))
      holders := some (orZero tokenData.holders)
      risky := assessRisk tokenData.risk
      poolAddress := pool.bind (·.poolId)
      market := pool.bind (·.market) }

/-- `Array.prototype.map` with a callback that may throw (`none`): the mapped
list, or `none` as soon as one call throws. -/
def mapThrowing {α β : Type} (f : α → Option β) : List α → Option (List β)
  | [] => some []
  | a :: rest =>
    match f a with
    | none => none
    | some b =>
      match mapThrowing f rest with
      | none => none
      | some bs => some (b :: bs)

/-- `getTokensFromTracker()` (lines 76-91): a failed request, a body that is not
a list, or a record that cannot be parsed are all caught and give `[]`. -/
def getTokensFromTracker (r : Remote) : List Token :=
  match r.tracker with
  | none => []
  | some data =>
    match mapThrowing (parseTrackerToken r.trackerNow) data with
    | some tokens => tokens
    | none => []

/-- `parseHeliusToken(tokenData)` (lines 134-149). -/
def parseHeliusToken (now : ℚ) (tokenData : HeliusRecord) : Token :=
  { mint := tokenData.mint
    name := tokenData.name
    symbol := tokenData.symbol
    decimals := tokenData.decimals
    description := tokenData.description
    image := tokenData.image
    createdTime := now
    creator := none
    liquidityUsd := 0
    marketCapUsd := 0
    priceUsd := some 0
    holders := some 0
    risky := false
    poolAddress := none
    market := none }

/-- `getTokensFromHelius()` (lines 116-132). -/
def getTokensFromHelius (r : Remote) : List Token :=
  match r.helius with
  | none => []
  | some data => data.map (parseHeliusToken r.heliusNow)

/-- `getTokenInfo(tokenAccount)` (lines 185-215) with `getTokenMetadata`
(lines 217-244) inlined: the metadata object is either empty or the fixed
triple `Token`, `TKN`, `6`. -/
def getTokenInfo (now : ℚ) (a : RpcAccount) : Option Token :=
  match a.mint with
  | none => none
  | some mint =>
    some {
      mint := mint
      name := some (if a.hasMetadata then "Token" else "Unknown")
      symbol := some (if a.hasMetadata then "TKN" else "UNK")
      decimals := some 6
      description := some ""
      image := some ""
      createdTime := now
      creator := none
      liquidityUsd := 0
      marketCapUsd := 0
      priceUsd := some 0
      holders := some 0
      risky := false
      poolAddress := none
      market := none }

/-- `getTokensFromRPC()` (lines 151-183). -/
def getTokensFromRPC (cfg : Config) (r : Remote) : List Token :=
  match r.rpc with
  | none => []
  | some accounts =>
    (accounts.take 10).filterMap fun account =>
      match getTokenInfo r.rpcNow account with
      | some tokenInfo => if isTokenNew cfg r.rpcNow tokenInfo then some tokenInfo else none
      | none => none

/-- The remote sources `getNewTokens` can call. -/
inductive Source
  | tracker
  | helius
  | rpc
deriving DecidableEq

/-- Result of the aggregation step: the candidate list `newTokens` and the
sources that were called, in call order. -/
structure Aggregated where
  candidates : List Token
  calls : List Source

/-- Lines 37-55 of `getNewTokens`: the candidate list `newTokens` and the record
of which source methods were invoked. -/
def aggregate (cfg : Config) (r : Remote) : Aggregated :=
  let s0 : Aggregated := ⟨[], []⟩
  let s1 : Aggregated :=
    if truthyStr cfg.solanaTrackerApiKey
    then ⟨s0.candidates ++ getTokensFromTracker r, s0.calls ++ [Source.tracker]⟩ else s0
  let s2 : Aggregated :=
    if truthyStr cfg.heliusApiKey
    then ⟨s1.candidates ++ getTokensFromHelius r, s1.calls ++ [Source.helius]⟩ else s1
  if s2.candidates.length = 0
  then ⟨s2.candidates ++ getTokensFromRPC cfg r, s2.calls ++ [Source.rpc]⟩ else s2

/-- Lines 57-68 of `getNewTokens`: the filter over the candidate list followed
by the update of the Known-Set; returns the new Known-Set and `filteredTokens`. -/
def noveltyFilter (cfg : Config) (known : List String) (now : ℚ) (candidates : List Token) :
    List String × List Token :=
  let filteredTokens := candidates.filter fun token =>
    !(decide (token.mint ∈ known)) && isTokenNew cfg now token
  (addMints known filteredTokens, filteredTokens)

/-- `getNewTokens()` (lines 35-74): the new Known-Set and the returned list.
Every source method catches its own errors and returns a list, so the outer
`catch` (lines 70-73) is not reached. -/
def getNewTokens (cfg : Config) (known : List String) (r : Remote) : List String × List Token :=
  noveltyFilter cfg known r.now (aggregate cfg r).candidates

/-- The call `this.getRecentTokens()` of line 24: neither `TokenMonitor` nor any
other file of the repository defines a method `getRecentTokens`, so the call
raises a TypeError. -/
def getRecentTokens : Except String (List Token) :=
  Except.error "TypeError: this.getRecentTokens is not a function"

/-- `loadInitialTokens()` (lines 21-33): the new Known-Set. -/
def loadInitialTokens (known : List String) : List String :=
  match getRecentTokens with
  | Except.ok recentTokens => addMints known recentTokens
  | Except.error _ => known

/-- `initialize()` (lines 12-19) of `TokenMonitor`. -/
def initializeMonitor (known : List String) : List String :=
  loadInitialTokens known

end TokenMonitor

/-! ## SolanaTokenBot -/

namespace SolanaTokenBot

/-- Mutable state of the bot: `tokenMonitor.knownTokens` (the Known-Set),
`processedTokens` and `isRunning`. -/
structure Bot where
  knownTokens : List String
  processedTokens : List String
  isRunning : Bool

/-- What happens around `processNewToken` in one discovery cycle. -/
inductive Event
  /-- `processNewToken(token)` was entered and `shouldProcessToken` evaluated. -/
  | evaluated (token : Token) (qualifies : Bool)
  /-- `telegramService.sendMessage(message)` was called for `token`; `delivered`
  tells whether the call resolved (`true`) or threw (`false`). -/
  | sinkCall (token : Token) (message : String) (delivered : Bool)
  /-- The `catch` of `processNewToken` logged an error for `token`. -/
  | errorLogged (token : Token)
deriving DecidableEq

/-- Environment of one discovery cycle: the remote outcomes of `getNewTokens`,
the `Date.now()` reading while the `i`-th returned token is processed, and
whether the sink call made for the `i`-th returned token resolves. -/
structure CycleEnv where
  remote : Remote
  clock : Nat → ℚ
  delivers : Nat → Bool

/-- `shouldProcessToken(token)` (lines 91-103); `now` is the `Date.now()`
reading of line 93. -/
def shouldProcessToken (cfg : Config) (now : ℚ) (token : Token) : Bool :=
  let tokenAge := now - token.createdTime
  let maxAge := cfg.maxAgeMinutes * 60 * 1000
  decide (tokenAge ≤ maxAge) &&
  decide (token.liquidityUsd ≥ cfg.minLiquidityUsd) &&
  decide (token.marketCapUsd ≥ cfg.minMarketCapUsd) &&
  !token.risky

/-- `processNewToken(token)` (lines 78-89): the events it produces.  A failed
sink call is caught and logged; nothing is rethrown. -/
def processNewToken (flt : ℚ → String) (cfg : Config) (now : ℚ) (delivered : Bool)
    (token : Token) : List Event :=
  if shouldProcessToken cfg now token then
    [Event.evaluated token true,
     Event.sinkCall token (formatTokenMessage flt now token) delivered] ++
    (if delivered then [] else [Event.errorLogged token])
  else [Event.evaluated token false]

/-- The `for` loop of `checkForNewTokens` (lines 64-69) from position `i` on:
the final `processedTokens` and the events, in order. -/
def processLoop (flt : ℚ → String) (cfg : Config) (env : CycleEnv) :
    Nat → List String → List Token → List String × List Event
  | _, processed, [] => (processed, [])
  | i, processed, token :: rest =>
    if token.mint ∈ processed then processLoop flt cfg env (i + 1) processed rest
    else
      let evs := processNewToken flt cfg (env.clock i) (env.delivers i) token
      let out := processLoop flt cfg env (i + 1) (setAdd processed token.mint) rest
      (out.1, evs ++ out.2)

/-- `checkForNewTokens()` (lines 58-76): the state after the cycle and the
events of the cycle. -/
def checkForNewTokens (flt : ℚ → String) (cfg : Config) (env : CycleEnv) (bot : Bot) :
    Bot × List Event :=
  let r := TokenMonitor.getNewTokens cfg bot.knownTokens env.remote
  let out := processLoop flt cfg env 0 bot.processedTokens r.2
  ({ bot with knownTokens := r.1, processedTokens := out.1 }, out.2)

/-- A sequence of discovery cycles run one after the other: the final state and
all events, in order. -/
def runCycles (flt : ℚ → String) (cfg : Config) : List CycleEnv → Bot → Bot × List Event
  | [], bot => (bot, [])
  | env :: rest, bot =>
    let a := checkForNewTokens flt cfg env bot
    let b := runCycles flt cfg rest a.1
    (b.1, a.2 ++ b.2)

/-- The sink calls among a list of events, as the tokens they were made for. -/
def sinkCalls : List Event → List Token
  | [] => []
  | Event.sinkCall token _ _ :: rest => token :: sinkCalls rest
  | _ :: rest => sinkCalls rest

/-- The tokens handed to `processNewToken` among a list of events. -/
def evaluatedTokens : List Event → List Token
  | [] => []
  | Event.evaluated token _ :: rest => token :: evaluatedTokens rest
  | _ :: rest => evaluatedTokens rest

end SolanaTokenBot

/-! ## TelegramService -/

namespace TelegramService

/-- `formatNumber(num)` of `src/services/TelegramService.js` (lines 100-105). -/
def formatNumber (flt : ℚ → String) (num : ℚ) : String :=
  if num ≥ 10 ^ 9 then toFixed flt 2 (fdiv num (10 ^ 9)) ++ "B"
  else if num ≥ 10 ^ 6 then toFixed flt 2 (fdiv num (10 ^ 6)) ++ "M"
  else if num ≥ 10 ^ 3 then toFixed flt 2 (fdiv num (10 ^ 3)) ++ "K"
  else toFixed flt 2 num

/-- `formatTokenAlert(token)` of `src/services/TelegramService.js` (lines 76-98);
`now` is the `Date.now()` reading of line 77. -/
def formatTokenAlert (flt : ℚ → String) (now : ℚ) (token : Token) : String :=
  let age : ℚ := (⌊(now - token.createdTime) / 60000⌋ : ℤ)
  let riskEmoji := if token.risky then "⚠️" else "✅"
  "🪙 **New Token Alert** " ++ riskEmoji ++ "\n\n" ++
  "**" ++ strOrUndefined token.name ++ "** (" ++ strOrUndefined token.symbol ++ ")\n" ++
  "📍 **Address:** `" ++ token.mint ++ "`\n" ++
  "💰 **Market Cap:** $" ++ formatNumber flt token.marketCapUsd ++ "\n" ++
  "💧 **Liquidity:** $" ++ formatNumber flt token.liquidityUsd ++ "\n" ++
  "📊 **Price:** $" ++
    (if truthyNum token.priceUsd then toFixed flt 8 (orZero token.priceUsd) else "N/A") ++ "\n" ++
  "👥 **Holders:** " ++
    (if truthyNum token.holders then numberToString flt (orZero token.holders) else "N/A") ++ "\n" ++
  "⏰ **Age:** " ++ numberToString flt age ++ " minutes\n\n" ++
  "🔗 **Links:**\n" ++
  "• [DexScreener](https://dexscreener.com/solana/" ++ token.mint ++ ")\n" ++
  "• [Solscan](https://solscan.io/token/" ++ token.mint ++ ")\n" ++
  "• [Jupiter](https://jup.ag/swap/SOL-" ++ token.mint ++ ")\n\n" ++
  (if truthyStr token.description then
      "📝 **Description:** " ++ strOrUndefined token.description else "") ++ "\n\n" ++
  "#Solana #NewToken #" ++ strOrUndefined token.symbol

end TelegramService

/-! ## Scheduler -/

namespace SolanaTokenBot

/-- State of the process around the cron callback of `startMonitoring`
(lines 47-53): the bot, and the number of discovery cycles in flight, that is
of callback runs that have passed the guard of line 48 and not yet reached
line 51. -/
structure Scheduler where
  bot : Bot
  inFlight : Nat

/-- The two kinds of step of the scheduler. -/
inductive Step
  /-- The cron trigger fires: the callback runs up to its `await`. -/
  | trigger
  /-- The awaited `checkForNewTokens` of a cycle in flight settles, with the
  outcomes `env`, and the callback resumes at line 51. -/
  | complete (env : CycleEnv)

/-- One step of the scheduler.  A trigger enters the guarded block only when
`isRunning` is false; a completion applies the cycle (which catches its own
errors, lines 73-75) and runs line 51. -/
def step (flt : ℚ → String) (cfg : Config) (s : Scheduler) : Step → Scheduler
  | Step.trigger =>
    if s.bot.isRunning then s
    else { bot := { s.bot with isRunning := true }, inFlight := s.inFlight + 1 }
  | Step.complete env =>
    if s.inFlight = 0 then s
    else
      { bot := { (checkForNewTokens flt cfg env s.bot).1 with isRunning := false }
        inFlight := s.inFlight - 1 }

/-- The scheduler after a sequence of steps. -/
def run (flt : ℚ → String) (cfg : Config) (s : Scheduler) (steps : List Step) : Scheduler :=
  steps.foldl (step flt cfg) s

/-- The state built by the constructor (lines 14-23), with the Known-Set as left
by the startup. -/
def initial (known : List String) : Scheduler :=
  { bot := { knownTokens := known, processedTokens := [], isRunning := false }
    inFlight := 0 }

end SolanaTokenBot

/-! ## Concrete inputs -/

/-- A configuration with both adapters disabled, a five minute freshness window
and the default thresholds of `Config.js`. -/
def sampleConfig : Config :=
  { solanaTrackerApiKey := none
    heliusApiKey := none
    checkIntervalMinutes := 1
    minLiquidityUsd := 1000
    minMarketCapUsd := 10000
    maxAgeMinutes := 5 }

/-- The configuration `sampleConfig` with both adapters enabled. -/
def sampleConfigBoth : Config :=
  { sampleConfig with solanaTrackerApiKey := some "k1", heliusApiKey := some "k2" }

/-- A Token Record with the given mint, name and creation time, liquidity 5000,
market cap 50000 and no risk. -/
def sampleToken (mint name : String) (createdTime : ℚ) : Token :=
  { mint := mint
    name := some name
    symbol := some "SMP"
    decimals := some 6
    description := none
    image := none
    createdTime := createdTime
    creator := none
    liquidityUsd := 5000
    marketCapUsd := 50000
    priceUsd := some 0
    holders := some 0
    risky := false
    poolAddress := none
    market := none }

/-- A Solana Tracker record for `mint`, created at `created` seconds, with one
pool of liquidity 5000 and market cap 50000 and no risk payload. -/
def sampleTrackerRecord (mint : String) (created : ℚ) : TrackerRecord :=
  { token := some
      { mint := mint
        name := some "Tracked"
        symbol := some "SMP"
        decimals := some 6
        description := none
        image := none
        creation := some { created_time := some created, creator := none } }
    pools := some
      [{ liquidityUsd := some 5000, marketCapUsd := some 50000, priceUsd := some 1,
         poolId := none, market := none }]
    holders := some 10
    risk := none }

/-- A Helius record for `mint`. -/
def sampleHeliusRecord (mint : String) : HeliusRecord :=
  { mint := mint
    name := some "Helius"
    symbol := some "SMP"
    decimals := some 6
    description := none
    image := none }

/-- Remote outcomes in which every request fails, all clocks reading `now`. -/
def sampleRemote (now : ℚ) : Remote :=
  { tracker := none
    helius := none
    rpc := none
    trackerNow := now
    heliusNow := now
    rpcNow := now
    now := now }

/-- A cycle environment over `remote` whose clock always reads `now` and whose
sink always delivers. -/
def sampleEnv (remote : Remote) (now : ℚ) : SolanaTokenBot.CycleEnv :=
  { remote := remote
    clock := fun _ => now
    delivers := fun _ => true }

/-- The Token Record parsed from `sampleTrackerRecord mint created` when
`created` is not zero. -/
def sampleTracked (mint : String) (created : ℚ) : Token :=
  { mint := mint
    name := some "Tracked"
    symbol := some "SMP"
    decimals := some 6
    description := none
    image := none
    createdTime := created * 1000
    creator := none
    liquidityUsd := 5000
    marketCapUsd := 50000
    priceUsd := some 1
    holders := some 10
    risky := false
    poolAddress := none
    market := none }

/-- Remote outcomes in which the Tracker answers `records` and every other
request fails, all clocks reading `now`. -/
def sampleTrackerRemote (now : ℚ) (records : List TrackerRecord) : Remote :=
  { sampleRemote now with tracker := some records }

/-- A cycle environment over `remote` whose clock always reads `now` and whose
sink never delivers. -/
def sampleFailingEnv (remote : Remote) (now : ℚ) : SolanaTokenBot.CycleEnv :=
  { remote := remote
    clock := fun _ => now
    delivers := fun _ => false }

/-- The record `sampleTrackerRecord mint created` with a risk payload flagged
rugged. -/
def sampleRuggedRecord (mint : String) (created : ℚ) : TrackerRecord :=
  { sampleTrackerRecord mint created with
    risk := some { rugged := true, score := none, snipersCount := none,
                   insidersCount := none } }

/-- A cycle environment over `remote` whose sink always delivers and whose clock
reads `now` while the first returned token is processed and `10 ^ 9` later. -/
def sampleLateEnv (remote : Remote) (now : ℚ) : SolanaTokenBot.CycleEnv :=
  { remote := remote
    clock := fun j => if j = 0 then now else 10 ^ 9
    delivers := fun _ => true }

/-! ## Auxiliary lemmas -/

section Lemmas

open TokenMonitor SolanaTokenBot

theorem mem_setAdd (s : List String) (m x : String) :
    x ∈ setAdd s m ↔ x ∈ s ∨ x = m := by
  unfold setAdd
  split_ifs with h
  · constructor
    · intro hx; exact Or.inl hx
    · rintro (hx | rfl)
      · exact hx
      · exact h
  · simp

theorem mem_addMints (tokens : List Token) (s : List String) (x : String) :
    x ∈ addMints s tokens ↔ x ∈ s ∨ ∃ t ∈ tokens, t.mint = x := by
  induction tokens generalizing s with
  | nil => simp [addMints]
  | cons t ts ih =>
    have step : addMints s (t :: ts) = addMints (setAdd s t.mint) ts := rfl
    rw [step, ih, mem_setAdd]
    constructor
    · rintro ((h | h) | ⟨u, hu, h⟩)
      · exact Or.inl h
      · exact Or.inr ⟨t, List.mem_cons_self _ _, h.symm⟩
      · exact Or.inr ⟨u, List.mem_cons_of_mem _ hu, h⟩
    · rintro (h | ⟨u, hu, h⟩)
      · exact Or.inl (Or.inl h)
      · rcases List.mem_cons.mp hu with rfl | hu
        · exact Or.inl (Or.inr h.symm)
        · exact Or.inr ⟨u, hu, h⟩

theorem isTokenNew_iff (cfg : Config) (now : ℚ) (t : Token) :
    isTokenNew cfg now t = true ↔ now - t.createdTime ≤ cfg.maxAgeMinutes * 60 * 1000 := by
  simp [isTokenNew]

theorem noveltyFilter_snd (cfg : Config) (known : List String) (now : ℚ) (c : List Token) :
    (noveltyFilter cfg known now c).2 =
      c.filter (fun t => !(decide (t.mint ∈ known)) && isTokenNew cfg now t) := rfl

theorem noveltyFilter_fst (cfg : Config) (known : List String) (now : ℚ) (c : List Token) :
    (noveltyFilter cfg known now c).1 = addMints known (noveltyFilter cfg known now c).2 := rfl

theorem mem_noveltyFilter (cfg : Config) (known : List String) (now : ℚ) (c : List Token)
    (t : Token) :
    t ∈ (noveltyFilter cfg known now c).2 ↔
      t ∈ c ∧ t.mint ∉ known ∧ now - t.createdTime ≤ cfg.maxAgeMinutes * 60 * 1000 := by
  simp [noveltyFilter_snd, List.mem_filter, isTokenNew]

end Lemmas

/-! ## Novelty filter -/

section NoveltyFilter

open TokenMonitor SolanaTokenBot

/-- C1 (as stated, refuted): with an empty Known-Set, a five minute window and
the single candidate `A` created ten minutes before `now`, the candidate is
stale and unknown, yet after the filter pass its mint is not in the Known-Set. -/
theorem stale_candidate_not_marked_known :
    sampleToken "A" "a" 0 ∈ [sampleToken "A" "a" 0] ∧
    (sampleToken "A" "a" 0).mint ∉ ([] : List String) ∧
    (600000 : ℚ) - (sampleToken "A" "a" 0).createdTime > sampleConfig.maxAgeMinutes * 60 * 1000 ∧
    (noveltyFilter sampleConfig [] 600000 [sampleToken "A" "a" 0]).1 = [] ∧
    (sampleToken "A" "a" 0).mint ∉ (noveltyFilter sampleConfig [] 600000 [sampleToken "A" "a" 0]).1 := by
  have h : (noveltyFilter sampleConfig [] 600000 [sampleToken "A" "a" 0]).1 = [] := by
    simp [noveltyFilter, isTokenNew, sampleToken, sampleConfig, addMints]
    norm_num
  refine ⟨by simp, by simp, ?_, h, ?_⟩
  · simp [sampleToken, sampleConfig]; norm_num
  · rw [h]; simp

/-- C1 (amended): a candidate whose mint is not in the Known-Set and whose age
exceeds the window is absent from the returned list, and its mint is in the
Known-Set afterwards exactly when some candidate of the same list with the same
mint is within the window (the stale candidate itself is not marked known). -/
theorem stale_candidate_dropped (cfg : Config) (known : List String) (now : ℚ)
    (candidates : List Token) (t : Token) (_hc : t ∈ candidates) (hk : t.mint ∉ known)
    (hstale : now - t.createdTime > cfg.maxAgeMinutes * 60 * 1000) :
    t ∉ (noveltyFilter cfg known now candidates).2 ∧
    (t.mint ∈ (noveltyFilter cfg known now candidates).1 ↔
      ∃ u ∈ candidates, u.mint = t.mint ∧
        now - u.createdTime ≤ cfg.maxAgeMinutes * 60 * 1000) := by
  constructor
  · intro hmem
    have := ((mem_noveltyFilter cfg known now candidates t).mp hmem).2.2
    exact absurd this (not_le.mpr hstale)
  · rw [noveltyFilter_fst, mem_addMints]
    constructor
    · rintro (h | ⟨u, hu, hmint⟩)
      · exact absurd h hk
      · have hu2 := (mem_noveltyFilter cfg known now candidates u).mp hu
        exact ⟨u, hu2.1, hmint, hu2.2.2⟩
    · rintro ⟨u, hu, hmint, hfresh⟩
      refine Or.inr ⟨u, ?_, hmint⟩
      exact (mem_noveltyFilter cfg known now candidates u).mpr ⟨hu, by rw [hmint]; exact hk, hfresh⟩

/-- C1 (amended), at a concrete input: candidates `A` (stale) and `B` (fresh),
empty Known-Set. -/
theorem stale_candidate_dropped_witness :
    sampleToken "A" "a" 0 ∉
      (noveltyFilter sampleConfig [] 600000
        [sampleToken "A" "a" 0, sampleToken "B" "b" 500000]).2 ∧
    ((sampleToken "A" "a" 0).mint ∈
      (noveltyFilter sampleConfig [] 600000
        [sampleToken "A" "a" 0, sampleToken "B" "b" 500000]).1 ↔
      ∃ u ∈ [sampleToken "A" "a" 0, sampleToken "B" "b" 500000],
        u.mint = (sampleToken "A" "a" 0).mint ∧
        (600000 : ℚ) - u.createdTime ≤ sampleConfig.maxAgeMinutes * 60 * 1000) :=
  stale_candidate_dropped sampleConfig [] 600000
    [sampleToken "A" "a" 0, sampleToken "B" "b" 500000] (sampleToken "A" "a" 0)
    (by simp) (by simp) (by simp [sampleToken, sampleConfig]; norm_num)

/-- C6: the list returned by the filter pass is exactly the candidates whose
mint is not in the Known-Set and whose age is within the window, in input order:
it is the order-preserving selection by that predicate, hence a sublist of the
candidates with exactly those members; in particular this holds for candidate
lists with pairwise distinct mints.  The same holds for `getNewTokens` over its
aggregated candidates, and the result is a function of the inputs. -/
theorem noveltyFilter_result (cfg : Config) (known : List String) (now : ℚ)
    (candidates : List Token) :
    (noveltyFilter cfg known now candidates).2 =
      candidates.filter (fun t =>
        decide (t.mint ∉ known ∧ now - t.createdTime ≤ cfg.maxAgeMinutes * 60 * 1000)) ∧
    List.Sublist (noveltyFilter cfg known now candidates).2 candidates ∧
    (∀ t, t ∈ (noveltyFilter cfg known now candidates).2 ↔
      t ∈ candidates ∧ t.mint ∉ known ∧
        now - t.createdTime ≤ cfg.maxAgeMinutes * 60 * 1000) ∧
    (∀ r : Remote, (getNewTokens cfg known r).2 =
      (aggregate cfg r).candidates.filter (fun t =>
        decide (t.mint ∉ known ∧ r.now - t.createdTime ≤ cfg.maxAgeMinutes * 60 * 1000))) ∧
    (∀ known2 now2 candidates2, known2 = known → now2 = now → candidates2 = candidates →
      noveltyFilter cfg known2 now2 candidates2 = noveltyFilter cfg known now candidates) := by
  have key : ∀ (k : List String) (n : ℚ) (c : List Token),
      (noveltyFilter cfg k n c).2 =
        c.filter (fun t =>
          decide (t.mint ∉ k ∧ n - t.createdTime ≤ cfg.maxAgeMinutes * 60 * 1000)) := by
    intro k n c
    rw [noveltyFilter_snd]
    congr 1
    funext t
    simp [isTokenNew]
  refine ⟨key _ _ _, ?_, mem_noveltyFilter cfg known now candidates, ?_, ?_⟩
  · rw [noveltyFilter_snd]; exact List.filter_sublist _
  · intro r; exact key _ _ _
  · rintro _ _ _ rfl rfl rfl; rfl

end NoveltyFilter

/-! ## Qualification -/

section Qualification

open TokenMonitor SolanaTokenBot

/-- C3: `shouldProcessToken` returns true exactly when the age is within the
window, the liquidity and the market cap reach their minimums and the token is
not risky; a risky token is rejected whatever its numbers. -/
theorem shouldProcessToken_iff (cfg : Config) (now : ℚ) (token : Token) :
    (shouldProcessToken cfg now token = true ↔
      (now - token.createdTime ≤ cfg.maxAgeMinutes * 60 * 1000 ∧
       token.liquidityUsd ≥ cfg.minLiquidityUsd ∧
       token.marketCapUsd ≥ cfg.minMarketCapUsd ∧
       token.risky = false)) ∧
    (token.risky = true → shouldProcessToken cfg now token = false) := by
  constructor
  · simp [shouldProcessToken, and_assoc]
  · intro h
    simp [shouldProcessToken, h]

end Qualification

/-! ## Known-Set -/

section KnownSet

open TokenMonitor SolanaTokenBot

/-- C7: `loadInitialTokens`, `initialize` and `getNewTokens` (for every remote
outcome, failures included) only grow the Known-Set: every mint known before is
known afterwards, and the mint of every token returned by `getNewTokens` is
known afterwards; the same holds for a whole cycle and for the filter pass over
any candidate list. -/
theorem knownSet_monotone (cfg : Config) (known : List String) :
    (∀ m ∈ known, m ∈ loadInitialTokens known) ∧
    (∀ m ∈ known, m ∈ initializeMonitor known) ∧
    (∀ (now : ℚ) (candidates : List Token),
      (∀ m ∈ known, m ∈ (noveltyFilter cfg known now candidates).1) ∧
      (∀ t ∈ (noveltyFilter cfg known now candidates).2,
        t.mint ∈ (noveltyFilter cfg known now candidates).1)) ∧
    (∀ r : Remote,
      (∀ m ∈ known, m ∈ (getNewTokens cfg known r).1) ∧
      (∀ t ∈ (getNewTokens cfg known r).2, t.mint ∈ (getNewTokens cfg known r).1)) ∧
    (∀ (flt : ℚ → String) (env : CycleEnv) (bot : Bot), bot.knownTokens = known →
      ∀ m ∈ known, m ∈ (checkForNewTokens flt cfg env bot).1.knownTokens) := by
  have filt : ∀ (now : ℚ) (candidates : List Token),
      (∀ m ∈ known, m ∈ (noveltyFilter cfg known now candidates).1) ∧
      (∀ t ∈ (noveltyFilter cfg known now candidates).2,
        t.mint ∈ (noveltyFilter cfg known now candidates).1) := by
    intro now candidates
    constructor
    · intro m hm
      rw [noveltyFilter_fst, mem_addMints]
      exact Or.inl hm
    · intro t ht
      rw [noveltyFilter_fst, mem_addMints]
      exact Or.inr ⟨t, ht, rfl⟩
  refine ⟨?_, ?_, filt, ?_, ?_⟩
  · intro m hm
    simpa [loadInitialTokens, getRecentTokens] using hm
  · intro m hm
    simpa [initializeMonitor, loadInitialTokens, getRecentTokens] using hm
  · intro r
    exact filt r.now (aggregate cfg r).candidates
  · intro flt env bot hbot m hm
    subst hbot
    exact (filt env.remote.now (aggregate cfg env.remote).candidates).1 m hm

end KnownSet

/-! ## Aggregation -/

section Aggregation

open TokenMonitor SolanaTokenBot

theorem aggregate_candidates (cfg : Config) (r : Remote) :
    (aggregate cfg r).candidates =
      (if truthyStr cfg.solanaTrackerApiKey then getTokensFromTracker r else []) ++
      (if truthyStr cfg.heliusApiKey then getTokensFromHelius r else []) ++
      (if (if truthyStr cfg.solanaTrackerApiKey then getTokensFromTracker r else []) ++
          (if truthyStr cfg.heliusApiKey then getTokensFromHelius r else []) = []
       then getTokensFromRPC cfg r else []) := by
  unfold aggregate
  by_cases h1 : truthyStr cfg.solanaTrackerApiKey = true <;>
  by_cases h2 : truthyStr cfg.heliusApiKey = true <;>
  simp only [h1, h2, if_true, if_false, List.nil_append, List.append_nil,
    List.length_eq_zero, Bool.false_eq_true] <;>
  (try split_ifs) <;> simp_all

theorem aggregate_calls_rpc (cfg : Config) (r : Remote) :
    Source.rpc ∈ (aggregate cfg r).calls ↔
      (if truthyStr cfg.solanaTrackerApiKey then getTokensFromTracker r else []) ++
      (if truthyStr cfg.heliusApiKey then getTokensFromHelius r else []) = [] := by
  unfold aggregate
  by_cases h1 : truthyStr cfg.solanaTrackerApiKey = true <;>
  by_cases h2 : truthyStr cfg.heliusApiKey = true <;>
  simp only [h1, h2, if_true, if_false, List.nil_append, List.append_nil,
    List.length_eq_zero, Bool.false_eq_true] <;>
  (try split_ifs) <;> simp_all

end Aggregation

section AggregationClaims

open TokenMonitor SolanaTokenBot

/-- C8 (as stated, refuted): with both adapters enabled and both answering an
empty list while the ledger scan finds one account, the candidate list has one
record although the Tracker records followed by the Helius records are empty. -/
theorem candidates_not_plain_concatenation :
    truthyStr sampleConfigBoth.solanaTrackerApiKey = true ∧
    truthyStr sampleConfigBoth.heliusApiKey = true ∧
    getTokensFromTracker
      { sampleRemote 0 with tracker := some [], helius := some [],
                            rpc := some [{ mint := some "R", hasMetadata := true }] } ++
    getTokensFromHelius
      { sampleRemote 0 with tracker := some [], helius := some [],
                            rpc := some [{ mint := some "R", hasMetadata := true }] } = [] ∧
    ((aggregate sampleConfigBoth
      { sampleRemote 0 with tracker := some [], helius := some [],
                            rpc := some [{ mint := some "R", hasMetadata := true }] }).candidates.map
        (·.mint)) = ["R"] := by
  refine ⟨by decide, by decide, ?_, ?_⟩
  · simp [getTokensFromTracker, getTokensFromHelius, sampleRemote, mapThrowing]
  · rw [aggregate_candidates]
    simp [getTokensFromTracker, getTokensFromHelius, getTokensFromRPC, getTokenInfo, isTokenNew,
      sampleRemote, sampleConfigBoth, sampleConfig, truthyStr, mapThrowing]

/-- C8 (amended): with both adapters enabled the candidate list is the Tracker
records followed by the Helius records, followed by the ledger scan's records
when (and only when) both adapters gave no record.  If one adapter gives no
record and the other gives `[t1, t2]`, the candidate list is `[t1, t2]`; records
of both sources are all kept, whatever their mints. -/
theorem candidates_concatenation (cfg : Config) (r : Remote)
    (htracker : truthyStr cfg.solanaTrackerApiKey = true)
    (hhelius : truthyStr cfg.heliusApiKey = true) :
    (aggregate cfg r).candidates =
      getTokensFromTracker r ++ getTokensFromHelius r ++
        (if getTokensFromTracker r ++ getTokensFromHelius r = []
         then getTokensFromRPC cfg r else []) ∧
    (getTokensFromTracker r ++ getTokensFromHelius r ≠ [] →
      (aggregate cfg r).candidates = getTokensFromTracker r ++ getTokensFromHelius r) ∧
    (∀ t1 t2, getTokensFromTracker r = [] → getTokensFromHelius r = [t1, t2] →
      (aggregate cfg r).candidates = [t1, t2]) ∧
    (∀ t1 t2, getTokensFromHelius r = [] → getTokensFromTracker r = [t1, t2] →
      (aggregate cfg r).candidates = [t1, t2]) ∧
    (∀ m, getTokensFromTracker r ++ getTokensFromHelius r ≠ [] →
      ((aggregate cfg r).candidates.map (·.mint)).count m =
        ((getTokensFromTracker r).map (·.mint)).count m +
        ((getTokensFromHelius r).map (·.mint)).count m) := by
  have main := aggregate_candidates cfg r
  simp only [htracker, hhelius, if_true] at main
  have ne : getTokensFromTracker r ++ getTokensFromHelius r ≠ [] →
      (aggregate cfg r).candidates = getTokensFromTracker r ++ getTokensFromHelius r := by
    intro h
    rw [main, if_neg h, List.append_nil]
  refine ⟨main, ne, ?_, ?_, ?_⟩
  · intro t1 t2 h1 h2
    rw [ne (by simp [h1, h2]), h1, h2]
    rfl
  · intro t1 t2 h1 h2
    rw [ne (by simp [h1, h2]), h1, h2]
    rfl
  · intro m h
    rw [ne h, List.map_append, List.count_append]

/-- C8 (amended), at a concrete input: the Tracker and Helius both report mint
`A`; both records are candidates, Tracker first. -/
theorem candidates_concatenation_witness :
    ((aggregate sampleConfigBoth
      { sampleRemote 0 with tracker := some [sampleTrackerRecord "A" 0],
                            helius := some [sampleHeliusRecord "A"] }).candidates.map
        (fun t => (t.mint, t.name))) = [("A", some "Tracked"), ("A", some "Helius")] := by
  have h := (candidates_concatenation sampleConfigBoth
    { sampleRemote 0 with tracker := some [sampleTrackerRecord "A" 0],
                          helius := some [sampleHeliusRecord "A"] } (by decide) (by decide)).1
  rw [h]
  simp [getTokensFromTracker, getTokensFromHelius, parseTrackerToken, parseHeliusToken,
    sampleRemote, sampleTrackerRecord, sampleHeliusRecord, mapThrowing]

/-- C9: the ledger scan `getTokensFromRPC` is called exactly when the enabled
adapters contributed no record (in particular when none is enabled, and when
every enabled one failed); the candidate list is then exactly the scan's
records, and when the scan fails too `getNewTokens` returns the empty list and
leaves the Known-Set as it was. -/
theorem fallback_trigger (cfg : Config) (r : Remote) :
    (Source.rpc ∈ (aggregate cfg r).calls ↔
      (if truthyStr cfg.solanaTrackerApiKey then getTokensFromTracker r else []) ++
      (if truthyStr cfg.heliusApiKey then getTokensFromHelius r else []) = []) ∧
    ((if truthyStr cfg.solanaTrackerApiKey then getTokensFromTracker r else []) ++
      (if truthyStr cfg.heliusApiKey then getTokensFromHelius r else []) = [] →
      (aggregate cfg r).candidates = getTokensFromRPC cfg r) ∧
    (truthyStr cfg.solanaTrackerApiKey = false → truthyStr cfg.heliusApiKey = false →
      Source.rpc ∈ (aggregate cfg r).calls ∧
      (aggregate cfg r).candidates = getTokensFromRPC cfg r) ∧
    (r.tracker = none → r.helius = none →
      Source.rpc ∈ (aggregate cfg r).calls ∧
      (aggregate cfg r).candidates = getTokensFromRPC cfg r) ∧
    (Source.rpc ∈ (aggregate cfg r).calls → r.rpc = none →
      ∀ known, getNewTokens cfg known r = (known, [])) := by
  have hcand : (if truthyStr cfg.solanaTrackerApiKey then getTokensFromTracker r else []) ++
      (if truthyStr cfg.heliusApiKey then getTokensFromHelius r else []) = [] →
      (aggregate cfg r).candidates = getTokensFromRPC cfg r := by
    intro h
    rw [aggregate_candidates, h, if_pos rfl, List.nil_append]
  refine ⟨aggregate_calls_rpc cfg r, hcand, ?_, ?_, ?_⟩
  · intro h1 h2
    have h : (if truthyStr cfg.solanaTrackerApiKey then getTokensFromTracker r else []) ++
        (if truthyStr cfg.heliusApiKey then getTokensFromHelius r else []) = [] := by
      simp [h1, h2]
    exact ⟨(aggregate_calls_rpc cfg r).mpr h, hcand h⟩
  · intro h1 h2
    have h : (if truthyStr cfg.solanaTrackerApiKey then getTokensFromTracker r else []) ++
        (if truthyStr cfg.heliusApiKey then getTokensFromHelius r else []) = [] := by
      simp [getTokensFromTracker, getTokensFromHelius, h1, h2]
    exact ⟨(aggregate_calls_rpc cfg r).mpr h, hcand h⟩
  · intro hcall hrpc known
    have h := (aggregate_calls_rpc cfg r).mp hcall
    have hc := hcand h
    have hr : getTokensFromRPC cfg r = [] := by simp [getTokensFromRPC, hrpc]
    simp [getNewTokens, noveltyFilter, hc, hr, addMints]

end AggregationClaims

/-! ## Startup -/

section Startup

open TokenMonitor SolanaTokenBot

/-- C5 (the code at the failing input): `initialize` leaves every Known-Set as
it was, because the call of the undefined method `getRecentTokens` throws inside
`loadInitialTokens`.  With the Tracker reporting the token `A` (created one
second after the epoch, read at one minute), the Known-Set is still empty after
`initialize`, the first `getNewTokens` returns `A`, and the first cycle calls
the sink for `A`. -/
theorem initialize_seeds_nothing :
    (∀ known, initializeMonitor known = known) ∧
    initializeMonitor [] = [] ∧
    ((getNewTokens sampleConfigBoth (initializeMonitor [])
        { sampleRemote 60000 with tracker := some [sampleTrackerRecord "A" 1] }).2.map
      (·.mint)) = ["A"] ∧
    (∀ flt : ℚ → String,
      (sinkCalls (checkForNewTokens flt sampleConfigBoth
        (sampleEnv { sampleRemote 60000 with tracker := some [sampleTrackerRecord "A" 1] } 60000)
        { knownTokens := initializeMonitor [], processedTokens := [], isRunning := false }).2).map
        (·.mint) = ["A"]) := by
  have hinit : ∀ known, initializeMonitor known = known := by
    intro known
    simp [initializeMonitor, loadInitialTokens, getRecentTokens]
  have hagg : (aggregate sampleConfigBoth
      { sampleRemote 60000 with tracker := some [sampleTrackerRecord "A" 1] }).candidates =
      [{ mint := "A", name := some "Tracked", symbol := some "SMP", decimals := some 6,
         description := none, image := none, createdTime := 1000, creator := none,
         liquidityUsd := 5000, marketCapUsd := 50000, priceUsd := some 1, holders := some 10,
         risky := false, poolAddress := none, market := none }] := by
    rw [aggregate_candidates]
    simp [getTokensFromTracker, getTokensFromHelius, parseTrackerToken, assessRisk,
      sampleRemote, sampleTrackerRecord, sampleConfigBoth, sampleConfig, truthyStr, truthyNum,
      orZero, mapThrowing]
  have hnew : (getNewTokens sampleConfigBoth []
      { sampleRemote 60000 with tracker := some [sampleTrackerRecord "A" 1] }).2 =
      [{ mint := "A", name := some "Tracked", symbol := some "SMP", decimals := some 6,
         description := none, image := none, createdTime := 1000, creator := none,
         liquidityUsd := 5000, marketCapUsd := 50000, priceUsd := some 1, holders := some 10,
         risky := false, poolAddress := none, market := none }] := by
    unfold getNewTokens
    rw [hagg]
    simp [noveltyFilter, isTokenNew, sampleRemote, sampleConfigBoth, sampleConfig]
    norm_num
  refine ⟨hinit, hinit [], ?_, ?_⟩
  · rw [hinit, hnew]; rfl
  · intro flt
    simp only [checkForNewTokens, hinit, hnew, sampleEnv]
    simp [processLoop, processNewToken, shouldProcessToken, sinkCalls, sampleConfigBoth,
      sampleConfig]
    norm_num [sinkCalls]

end Startup

/-! ## Discovery cycles -/

section Cycles

open TokenMonitor SolanaTokenBot

theorem sinkCalls_append (a b : List Event) :
    sinkCalls (a ++ b) = sinkCalls a ++ sinkCalls b := by
  induction a with
  | nil => rfl
  | cons e es ih => cases e <;> simp [sinkCalls, ih]

theorem evaluatedTokens_append (a b : List Event) :
    evaluatedTokens (a ++ b) = evaluatedTokens a ++ evaluatedTokens b := by
  induction a with
  | nil => rfl
  | cons e es ih => cases e <;> simp [evaluatedTokens, ih]

theorem evaluatedTokens_processNewToken (flt : ℚ → String) (cfg : Config) (now : ℚ)
    (delivered : Bool) (token : Token) :
    evaluatedTokens (processNewToken flt cfg now delivered token) = [token] := by
  unfold processNewToken
  split_ifs <;> simp [evaluatedTokens]

theorem sinkCalls_processNewToken (flt : ℚ → String) (cfg : Config) (now : ℚ)
    (delivered : Bool) (token : Token) :
    sinkCalls (processNewToken flt cfg now delivered token) =
      if shouldProcessToken cfg now token then [token] else [] := by
  unfold processNewToken
  split_ifs <;> simp [sinkCalls]

theorem processLoop_nil (flt : ℚ → String) (cfg : Config) (env : CycleEnv) (i : Nat)
    (processed : List String) :
    processLoop flt cfg env i processed [] = (processed, []) := by
  simp [processLoop]

theorem processLoop_cons_seen (flt : ℚ → String) (cfg : Config) (env : CycleEnv) (i : Nat)
    (processed : List String) (token : Token) (rest : List Token)
    (h : token.mint ∈ processed) :
    processLoop flt cfg env i processed (token :: rest) =
      processLoop flt cfg env (i + 1) processed rest := by
  simp [processLoop, h]

theorem processLoop_cons_fresh (flt : ℚ → String) (cfg : Config) (env : CycleEnv) (i : Nat)
    (processed : List String) (token : Token) (rest : List Token)
    (h : token.mint ∉ processed) :
    processLoop flt cfg env i processed (token :: rest) =
      ((processLoop flt cfg env (i + 1) (setAdd processed token.mint) rest).1,
       processNewToken flt cfg (env.clock i) (env.delivers i) token ++
        (processLoop flt cfg env (i + 1) (setAdd processed token.mint) rest).2) := by
  simp [processLoop, h]

/-- Invariants of the `for` loop of `checkForNewTokens`: `processedTokens` only
grows and ends up holding every mint of the list; the tokens handed to
`processNewToken` have pairwise distinct mints, none of them processed before,
and each is the first record of its mint in the list; every mint not processed
before is handed over; the sink is only called for tokens handed over. -/
theorem processLoop_spec (flt : ℚ → String) (cfg : Config) (env : CycleEnv)
    (tokens : List Token) :
    ∀ (i : Nat) (processed : List String),
      (∀ m ∈ processed, m ∈ (processLoop flt cfg env i processed tokens).1) ∧
      (∀ t ∈ tokens, t.mint ∈ (processLoop flt cfg env i processed tokens).1) ∧
      (∀ t ∈ evaluatedTokens (processLoop flt cfg env i processed tokens).2,
        t.mint ∉ processed ∧
        tokens.find? (fun u => decide (u.mint = t.mint)) = some t) ∧
      ((evaluatedTokens (processLoop flt cfg env i processed tokens).2).map (·.mint)).Nodup ∧
      (∀ t ∈ tokens, t.mint ∉ processed →
        ∃ u ∈ evaluatedTokens (processLoop flt cfg env i processed tokens).2,
          u.mint = t.mint) ∧
      List.Sublist (sinkCalls (processLoop flt cfg env i processed tokens).2)
        (evaluatedTokens (processLoop flt cfg env i processed tokens).2) := by
  induction tokens with
  | nil =>
    intro i processed
    simp [processLoop_nil, evaluatedTokens, sinkCalls]
  | cons token rest ih =>
    intro i processed
    by_cases h : token.mint ∈ processed
    · rw [processLoop_cons_seen flt cfg env i processed token rest h]
      obtain ⟨h1, h2, h3, h4, h5, h6⟩ := ih (i + 1) processed
      refine ⟨h1, ?_, ?_, h4, ?_, h6⟩
      · intro t ht
        rcases List.mem_cons.mp ht with rfl | ht
        · exact h1 _ h
        · exact h2 t ht
      · intro t ht
        obtain ⟨hp, hf⟩ := h3 t ht
        refine ⟨hp, ?_⟩
        have hne : token.mint ≠ t.mint := fun e => hp (e ▸ h)
        simp [List.find?_cons, hne, hf]
      · intro t ht hp
        rcases List.mem_cons.mp ht with rfl | ht
        · exact absurd h hp
        · exact h5 t ht hp
    · rw [processLoop_cons_fresh flt cfg env i processed token rest h]
      obtain ⟨h1, h2, h3, h4, h5, h6⟩ := ih (i + 1) (setAdd processed token.mint)
      simp only [evaluatedTokens_append, evaluatedTokens_processNewToken, sinkCalls_append,
        sinkCalls_processNewToken]
      refine ⟨?_, ?_, ?_, ?_, ?_, ?_⟩
      · intro m hm
        exact h1 m ((mem_setAdd _ _ _).mpr (Or.inl hm))
      · intro t ht
        rcases List.mem_cons.mp ht with rfl | ht
        · exact h1 _ ((mem_setAdd _ _ _).mpr (Or.inr rfl))
        · exact h2 t ht
      · intro t ht
        rcases List.mem_cons.mp ht with rfl | ht
        · exact ⟨h, by simp [List.find?_cons]⟩
        · obtain ⟨hp, hf⟩ := h3 t ht
          have hp2 : ¬ (t.mint ∈ processed ∨ t.mint = token.mint) := fun e =>
            hp ((mem_setAdd _ _ _).mpr e)
          have hne : token.mint ≠ t.mint := fun e => hp2 (Or.inr e.symm)
          refine ⟨fun e => hp2 (Or.inl e), ?_⟩
          simp [List.find?_cons, hne, hf]
      · simp only [List.singleton_append, List.map_cons, List.nodup_cons]
        refine ⟨?_, h4⟩
        intro hmem
        obtain ⟨u, hu, hmint⟩ := List.mem_map.mp hmem
        exact (h3 u hu).1 ((mem_setAdd _ _ _).mpr (Or.inr hmint))
      · intro t ht hp
        by_cases hsame : t.mint = token.mint
        · exact ⟨token, by simp, hsame.symm⟩
        · rcases List.mem_cons.mp ht with rfl | ht
          · exact absurd rfl hsame
          · have hp2 : t.mint ∉ setAdd processed token.mint := by
              rw [mem_setAdd]
              rintro (e | e)
              · exact hp e
              · exact hsame e
            obtain ⟨u, hu, hmint⟩ := h5 t ht hp2
            exact ⟨u, by simp [hu], hmint⟩
      · split_ifs
        · exact List.Sublist.cons₂ _ h6
        · exact List.Sublist.cons _ h6

end Cycles

section CycleClaims

open TokenMonitor SolanaTokenBot

theorem checkForNewTokens_sinkCalls (flt : ℚ → String) (cfg : Config) (env : CycleEnv)
    (bot : Bot) :
    (∀ m ∈ bot.processedTokens, m ∈ (checkForNewTokens flt cfg env bot).1.processedTokens) ∧
    (∀ t ∈ sinkCalls (checkForNewTokens flt cfg env bot).2,
      t.mint ∉ bot.processedTokens ∧
      t.mint ∈ (checkForNewTokens flt cfg env bot).1.processedTokens) ∧
    ((sinkCalls (checkForNewTokens flt cfg env bot).2).map (·.mint)).Nodup := by
  obtain ⟨h1, h2, h3, h4, _, h6⟩ := processLoop_spec flt cfg env
    (getNewTokens cfg bot.knownTokens env.remote).2 0 bot.processedTokens
  refine ⟨h1, ?_, ?_⟩
  · intro t ht
    have hev := h6.subset ht
    obtain ⟨hp, hf⟩ := h3 t hev
    exact ⟨hp, h2 t (List.mem_of_find?_eq_some hf)⟩
  · exact h4.sublist (h6.map _)

theorem runCycles_sinkCalls (flt : ℚ → String) (cfg : Config) (envs : List CycleEnv) :
    ∀ bot : Bot,
      (∀ t ∈ sinkCalls (runCycles flt cfg envs bot).2, t.mint ∉ bot.processedTokens) ∧
      ((sinkCalls (runCycles flt cfg envs bot).2).map (·.mint)).Nodup := by
  induction envs with
  | nil =>
    intro bot
    simp [runCycles, sinkCalls]
  | cons env rest ih =>
    intro bot
    obtain ⟨c1, c2, c3⟩ := checkForNewTokens_sinkCalls flt cfg env bot
    obtain ⟨r1, r2⟩ := ih (checkForNewTokens flt cfg env bot).1
    have hev : (runCycles flt cfg (env :: rest) bot).2 =
        (checkForNewTokens flt cfg env bot).2 ++
        (runCycles flt cfg rest (checkForNewTokens flt cfg env bot).1).2 := rfl
    rw [hev, sinkCalls_append]
    constructor
    · intro t ht
      rcases List.mem_append.mp ht with ht | ht
      · exact (c2 t ht).1
      · exact fun hp => r1 t ht (c1 _ hp)
    · rw [List.map_append, List.nodup_append]
      refine ⟨c3, r2, ?_⟩
      intro m hm1 hm2
      obtain ⟨t, ht, rfl⟩ := List.mem_map.mp hm1
      obtain ⟨u, hu, hmint⟩ := List.mem_map.mp hm2
      have hu2 := r1 u hu
      rw [hmint] at hu2
      exact hu2 (c2 t ht).2

/-- C2: over any sequence of discovery cycles, from any initial Known-Set and
any initial processed set (the empty one in particular), whatever the remote
sources return and whether or not deliveries succeed, the sink is called at most
once in total for tokens of any given mint. -/
theorem sink_called_at_most_once (flt : ℚ → String) (cfg : Config) (envs : List CycleEnv)
    (bot : Bot) (m : String) :
    ((sinkCalls (runCycles flt cfg envs bot).2).filter (fun t => decide (t.mint = m))).length
      ≤ 1 := by
  have h := (runCycles_sinkCalls flt cfg envs bot).2
  have hc := List.nodup_iff_count_le_one.mp h m
  rw [List.count, List.countP_map, List.countP_eq_length_filter] at hc
  have hfun : ((fun x : String => x == m) ∘ fun t : Token => t.mint) =
      fun t : Token => decide (t.mint = m) := by
    funext t
    by_cases e : t.mint = m <;> simp [e]
  rw [hfun] at hc
  exact hc

/-- C4 (as stated, refuted): with an empty Known-Set and two fresh candidates of
the same mint `A`, the returned list holds both records. -/
theorem same_mint_twice_in_result :
    (noveltyFilter sampleConfig [] 0 [sampleToken "A" "first" 0, sampleToken "A" "second" 0]).2 =
      [sampleToken "A" "first" 0, sampleToken "A" "second" 0] ∧
    (((noveltyFilter sampleConfig [] 0
        [sampleToken "A" "first" 0, sampleToken "A" "second" 0]).2.map (·.mint)).count "A") = 2 := by
  have h : (noveltyFilter sampleConfig [] 0
      [sampleToken "A" "first" 0, sampleToken "A" "second" 0]).2 =
      [sampleToken "A" "first" 0, sampleToken "A" "second" 0] := by
    simp [noveltyFilter, isTokenNew, sampleToken, sampleConfig]
  refine ⟨h, ?_⟩
  rw [h]
  simp [sampleToken]

/-- C4 (amended): the list returned by the filter pass keeps every candidate
that is within the window and whose mint was not in the Known-Set before the
call, repeated mints included.  First-seen wins one step later: of the returned
list, the loop of `checkForNewTokens` hands to `processNewToken` tokens of
pairwise distinct mints, each being the first returned record of its mint; later
records of that mint are skipped as already processed, and the sink is called
only for tokens handed over. -/
theorem first_seen_wins_in_cycle (flt : ℚ → String) (cfg : Config) (env : CycleEnv)
    (known processed : List String) (now : ℚ) (candidates : List Token) :
    (noveltyFilter cfg known now candidates).2 =
      candidates.filter (fun t =>
        decide (t.mint ∉ known ∧ now - t.createdTime ≤ cfg.maxAgeMinutes * 60 * 1000)) ∧
    ((evaluatedTokens (processLoop flt cfg env 0 processed
        (noveltyFilter cfg known now candidates).2).2).map (·.mint)).Nodup ∧
    (∀ t ∈ evaluatedTokens (processLoop flt cfg env 0 processed
        (noveltyFilter cfg known now candidates).2).2,
      t.mint ∉ processed ∧
      (noveltyFilter cfg known now candidates).2.find? (fun u => decide (u.mint = t.mint))
        = some t) ∧
    (∀ t ∈ (noveltyFilter cfg known now candidates).2, t.mint ∉ processed →
      ∃ u ∈ evaluatedTokens (processLoop flt cfg env 0 processed
        (noveltyFilter cfg known now candidates).2).2, u.mint = t.mint) ∧
    List.Sublist
      (sinkCalls (processLoop flt cfg env 0 processed
        (noveltyFilter cfg known now candidates).2).2)
      (evaluatedTokens (processLoop flt cfg env 0 processed
        (noveltyFilter cfg known now candidates).2).2) := by
  obtain ⟨_, _, h3, h4, h5, h6⟩ := processLoop_spec flt cfg env
    (noveltyFilter cfg known now candidates).2 0 processed
  refine ⟨?_, h4, h3, h5, h6⟩
  rw [noveltyFilter_snd]
  congr 1
  funext t
  simp [isTokenNew]

end CycleClaims

/-! ## Binary64 rounding -/

section Rounding

theorem roundHalfEven_bounds (y : ℚ) :
    y - 1 / 2 ≤ (roundHalfEven y : ℚ) ∧ (roundHalfEven y : ℚ) ≤ y + 1 / 2 := by
  have h1 := Int.floor_le y
  have h2 := Int.lt_floor_add_one y
  unfold roundHalfEven
  split_ifs with a b c
  · constructor <;> linarith
  · push_cast; constructor <;> linarith
  · constructor <;> linarith
  · push_cast; constructor <;> linarith

theorem roundHalfEven_eq_of_lt (y : ℚ) (m : ℤ) (hlo : (m : ℚ) - 1 / 2 < y)
    (hhi : y < (m : ℚ) + 1 / 2) : roundHalfEven y = m := by
  obtain ⟨h1, h2⟩ := roundHalfEven_bounds y
  have a : (m : ℚ) - 1 < (roundHalfEven y : ℚ) := by linarith
  have b : (roundHalfEven y : ℚ) < (m : ℚ) + 1 := by linarith
  have a2 : m - 1 < roundHalfEven y := by exact_mod_cast a
  have b2 : roundHalfEven y < m + 1 := by exact_mod_cast b
  omega

/-- Within the binade `2 ^ e <= x < 2 ^ (e + 1)` of the normal range, `binary64`
rounds to the nearest multiple of `2 ^ (e - 52)`. -/
theorem binary64_of_binade (x : ℚ) (e : ℤ) (hlo : (2 : ℚ) ^ e ≤ x)
    (hhi : x < (2 : ℚ) ^ (e + 1)) (he : -1022 ≤ e) :
    binary64 x = (roundHalfEven (x / 2 ^ (e - 52)) : ℚ) * 2 ^ (e - 52) := by
  have hpos : 0 < x := lt_of_lt_of_le (by positivity) hlo
  have habs : |x| = x := abs_of_pos hpos
  have hlog : Int.log 2 x = e := by
    have h1 : e ≤ Int.log 2 x :=
      (Int.zpow_le_iff_le_log (by norm_num) hpos).mp (by exact_mod_cast hlo)
    have h2 : Int.log 2 x < e + 1 :=
      (Int.lt_zpow_iff_log_lt (by norm_num) hpos).mp (by exact_mod_cast hhi)
    omega
  unfold binary64
  rw [habs, hlog, max_eq_left he]

theorem fdiv_eq (a b : ℚ) (e m : ℤ) (hlo : (2 : ℚ) ^ e ≤ a / b)
    (hhi : a / b < (2 : ℚ) ^ (e + 1)) (he : -1022 ≤ e)
    (h1 : (m : ℚ) - 1 / 2 < a / b / 2 ^ (e - 52))
    (h2 : a / b / 2 ^ (e - 52) < (m : ℚ) + 1 / 2) :
    fdiv a b = (m : ℚ) * 2 ^ (e - 52) := by
  unfold fdiv
  rw [binary64_of_binade (a / b) e hlo hhi he, roundHalfEven_eq_of_lt _ m h1 h2]

/-- Rounding to binary64 moves a value of at least 1 by at most the fraction
`2 ^ -53` of it. -/
theorem binary64_error (x : ℚ) (hx : 1 ≤ x) : |binary64 x - x| ≤ x / 2 ^ 53 := by
  have hpos : 0 < x := lt_of_lt_of_le one_pos hx
  have hlo : (2 : ℚ) ^ Int.log 2 x ≤ x := by
    have := Int.zpow_log_le_self (b := 2) (by norm_num) hpos
    exact_mod_cast this
  have hhi : x < (2 : ℚ) ^ (Int.log 2 x + 1) := by
    have := Int.lt_zpow_succ_log_self (b := 2) (by norm_num) x
    exact_mod_cast this
  have he0 : 0 ≤ Int.log 2 x := by
    have : (2 : ℚ) ^ (0 : ℤ) ≤ x := by simpa using hx
    exact (Int.zpow_le_iff_le_log (by norm_num) hpos).mp (by exact_mod_cast this)
  rw [binary64_of_binade x _ hlo hhi (by omega)]
  set e := Int.log 2 x with he
  have hu : (0 : ℚ) < 2 ^ (e - 52) := by positivity
  obtain ⟨b1, b2⟩ := roundHalfEven_bounds (x / 2 ^ (e - 52))
  have hx2 : x = x / 2 ^ (e - 52) * 2 ^ (e - 52) := by field_simp
  have hulp : (2 : ℚ) ^ (e - 52) = 2 ^ e / 2 ^ 52 := by
    rw [zpow_sub₀ (by norm_num)]; norm_num
  have hbound : (2 : ℚ) ^ (e - 52) / 2 ≤ x / 2 ^ 53 := by
    rw [hulp]
    have : (2 : ℚ) ^ e / 2 ^ 52 / 2 = 2 ^ e / 2 ^ 53 := by ring
    rw [this]
    exact div_le_div_of_nonneg_right hlo (by positivity)
  rw [abs_le]
  constructor
  · nlinarith
  · nlinarith

/-- The binary64 quotient by `1e3` of a value in `[999995, 1000000)` lies in
`[999.995, 1000]`. -/
theorem fdiv_near_thousand (m : ℚ) (h1 : 999995 ≤ m) (h2 : m < 1000000) :
    999995 / 1000 ≤ fdiv m (10 ^ 3) ∧ fdiv m (10 ^ 3) ≤ 1000 := by
  have hlo : (2 : ℚ) ^ (9 : ℤ) ≤ m / 10 ^ 3 := by
    rw [le_div_iff₀ (by norm_num)]; norm_num; linarith
  have hhi : m / 10 ^ 3 < (2 : ℚ) ^ ((9 : ℤ) + 1) := by
    rw [div_lt_iff₀ (by norm_num)]; norm_num; linarith
  unfold fdiv
  rw [binary64_of_binade (m / 10 ^ 3) 9 hlo hhi (by norm_num)]
  obtain ⟨b1, b2⟩ := roundHalfEven_bounds (m / 10 ^ 3 / 2 ^ ((9 : ℤ) - 52))
  have hy : m / 10 ^ 3 / 2 ^ ((9 : ℤ) - 52) = m * (2 ^ 43 / 1000) := by
    norm_num; ring
  rw [hy] at b1 b2 ⊢
  have hz : (2 : ℚ) ^ ((9 : ℤ) - 52) = 1 / 2 ^ 43 := by norm_num
  rw [hz]
  have c1 : ((8796049041742889 : ℤ) : ℚ) - 1 < (roundHalfEven (m * (2 ^ 43 / 1000)) : ℚ) := by
    push_cast; norm_num at b1 ⊢; linarith
  have c2 : (roundHalfEven (m * (2 ^ 43 / 1000)) : ℚ) < ((8796093022208000 : ℤ) : ℚ) + 1 := by
    push_cast; norm_num at b2 ⊢; linarith
  have d1 : (8796049041742889 : ℤ) ≤ roundHalfEven (m * (2 ^ 43 / 1000)) := by
    have : (8796049041742889 : ℤ) - 1 < roundHalfEven (m * (2 ^ 43 / 1000)) := by
      exact_mod_cast c1
    omega
  have d2 : roundHalfEven (m * (2 ^ 43 / 1000)) ≤ (8796093022208000 : ℤ) := by
    have : roundHalfEven (m * (2 ^ 43 / 1000)) < (8796093022208000 : ℤ) + 1 := by
      exact_mod_cast c2
    omega
  have e1 : ((8796049041742889 : ℤ) : ℚ) ≤ (roundHalfEven (m * (2 ^ 43 / 1000)) : ℚ) := by
    exact_mod_cast d1
  have e2 : (roundHalfEven (m * (2 ^ 43 / 1000)) : ℚ) ≤ ((8796093022208000 : ℤ) : ℚ) := by
    exact_mod_cast d2
  push_cast at e1 e2
  have hp : (0 : ℚ) ≤ 1 / 2 ^ 43 := by positivity
  have f1 := mul_le_mul_of_nonneg_right e1 hp
  have f2 := mul_le_mul_of_nonneg_right e2 hp
  have g1 : (999995 / 1000 : ℚ) ≤ 8796049041742889 * (1 / 2 ^ 43) := by norm_num
  have g2 : (8796093022208000 : ℚ) * (1 / 2 ^ 43) = 1000 := by norm_num
  constructor
  · linarith
  · linarith

/-- A quotient that is itself a binary64 value of the binade `e` is not moved
by the rounding. -/
theorem fdiv_exact (a b : ℚ) (e m : ℤ) (hlo : (2 : ℚ) ^ e ≤ a / b)
    (hhi : a / b < (2 : ℚ) ^ (e + 1)) (he : -1022 ≤ e)
    (hm : a / b / 2 ^ (e - 52) = (m : ℚ)) : fdiv a b = a / b := by
  have hu : (2 : ℚ) ^ (e - 52) ≠ 0 := by positivity
  rw [fdiv_eq a b e m hlo hhi he (by rw [hm]; linarith) (by rw [hm]; linarith), ← hm]
  exact div_mul_cancel₀ _ hu

end Rounding

/-! ## Number formatting -/

section Formatting

theorem toFixed_eq (flt : ℚ → String) (d : Nat) (x : ℚ) (r : ℕ) (h0 : 0 ≤ x)
    (h21 : x < 10 ^ 21) (hlo : (r : ℚ) ≤ x * 10 ^ d + 1 / 2)
    (hhi : x * 10 ^ d + 1 / 2 < r + 1) :
    toFixed flt d x =
      Nat.repr (r / 10 ^ d) ++
        (if d = 0 then "" else "." ++ padZeros d (Nat.repr (r % 10 ^ d))) := by
  have hfloor : ⌊x * 10 ^ d + 1 / 2⌋ = (r : ℤ) := by
    rw [Int.floor_eq_iff]
    exact ⟨by exact_mod_cast hlo, by exact_mod_cast hhi⟩
  unfold toFixed fixedDigits
  rw [if_neg (not_lt.mpr h0), abs_of_nonneg h0, if_neg (not_le.mpr h21), hfloor]
  simp

theorem padZeros_two_digits :
    ∀ k < 100, padZeros 2 (Nat.repr k) =
      String.mk [Nat.digitChar (k / 10), Nat.digitChar (k % 10)] := by
  decide

/-- Two-decimal rendering: below `10 ^ 21`, `toFixed(2)` of a non-negative `x`
is the decimal text of the integer part of `r / 100`, a point, and the two digits
of `r % 100`, where `r` is the integer nearest to `100 * x` (ties upwards). -/
theorem toFixed_two_decimals (flt : ℚ → String) (x : ℚ) (h0 : 0 ≤ x) (h21 : x < 10 ^ 21) :
    ∃ r : ℕ, (r : ℚ) - 1 / 2 ≤ x * 100 ∧ x * 100 < (r : ℚ) + 1 / 2 ∧
      toFixed flt 2 x =
        Nat.repr (r / 100) ++ "." ++
          String.mk [Nat.digitChar (r % 100 / 10), Nat.digitChar (r % 10)] := by
  have hnn : (0 : ℤ) ≤ ⌊x * 10 ^ 2 + 1 / 2⌋ := by
    apply Int.floor_nonneg.mpr
    positivity
  obtain ⟨r, hr⟩ := Int.eq_ofNat_of_zero_le hnn
  have hlo : (r : ℚ) ≤ x * 10 ^ 2 + 1 / 2 := by
    have := Int.floor_le (x * 10 ^ 2 + 1 / 2)
    rw [hr] at this
    exact_mod_cast this
  have hhi : x * 10 ^ 2 + 1 / 2 < r + 1 := by
    have := Int.lt_floor_add_one (x * 10 ^ 2 + 1 / 2)
    rw [hr] at this
    exact_mod_cast this
  refine ⟨r, by linarith, by linarith, ?_⟩
  rw [toFixed_eq flt 2 x r h0 h21 hlo hhi]
  have hpad := padZeros_two_digits (r % 100) (Nat.mod_lt _ (by norm_num))
  have hmod : r % 100 % 10 = r % 10 := Nat.mod_mod_of_dvd r (by norm_num)
  rw [hmod] at hpad
  simp only [Nat.reducePow, OfNat.ofNat_ne_zero, if_false, hpad, String.append_assoc]

end Formatting

section FormattingClaims

/-- C10: `formatNumber(n)` is `toFixed(2)` of the quotient `n / 1e9` followed by
`B` when `n >= 1e9`, of `n / 1e6` followed by `M` when `1e6 <= n < 1e9`, of
`n / 1e3` followed by `K` when `1e3 <= n < 1e6`, and of `n` itself without
suffix otherwise (this case split holds for every `n`, the non-negative ones in
particular); both copies of `formatNumber` agree.  The quotient is the binary64
quotient of the code: it differs from the exact quotient by at most the
fraction `2 ^ -53` of it.  For a non-negative value below `10 ^ 21`,
`toFixed(2)` is the two-decimal text of the nearest hundredth.  The four sample
values give `1.50K`, `2.30M`, `4.10B` and `750.00` (and 1005, whose binary64
quotient lies just below 1.005, gives `1.00K`), and the formatted message is a
function of the record and the instant. -/
theorem formatNumber_magnitude (flt : ℚ → String) (n : ℚ) :
    (10 ^ 9 ≤ n → formatNumber flt n = toFixed flt 2 (fdiv n (10 ^ 9)) ++ "B") ∧
    (10 ^ 6 ≤ n → n < 10 ^ 9 →
      formatNumber flt n = toFixed flt 2 (fdiv n (10 ^ 6)) ++ "M") ∧
    (10 ^ 3 ≤ n → n < 10 ^ 6 →
      formatNumber flt n = toFixed flt 2 (fdiv n (10 ^ 3)) ++ "K") ∧
    (n < 10 ^ 3 → formatNumber flt n = toFixed flt 2 n) ∧
    TelegramService.formatNumber flt n = formatNumber flt n ∧
    (∀ a b : ℚ, 1 ≤ a / b → |fdiv a b - a / b| ≤ a / b / 2 ^ 53) ∧
    (∀ x : ℚ, 0 ≤ x → x < 10 ^ 21 →
      ∃ r : ℕ, (r : ℚ) - 1 / 2 ≤ x * 100 ∧ x * 100 < (r : ℚ) + 1 / 2 ∧
        toFixed flt 2 x =
          Nat.repr (r / 100) ++ "." ++
            String.mk [Nat.digitChar (r % 100 / 10), Nat.digitChar (r % 10)]) ∧
    formatNumber flt 1500 = "1.50K" ∧
    formatNumber flt 2300000 = "2.30M" ∧
    formatNumber flt 4100000000 = "4.10B" ∧
    formatNumber flt 750 = "750.00" ∧
    formatNumber flt 1005 = "1.00K" ∧
    (∀ (now1 now2 : ℚ) (t1 t2 : Token), t1 = t2 → now1 = now2 →
      formatTokenMessage flt now1 t1 = formatTokenMessage flt now2 t2 ∧
      TelegramService.formatTokenAlert flt now1 t1 =
        TelegramService.formatTokenAlert flt now2 t2) := by
  refine ⟨?_, ?_, ?_, ?_, rfl, fun a b h => binary64_error (a / b) h,
    toFixed_two_decimals flt, ?_, ?_, ?_, ?_, ?_, ?_⟩
  · intro h
    rw [formatNumber, if_pos h]
  · intro h6 h9
    rw [formatNumber, if_neg (not_le.mpr h9), if_pos h6]
  · intro h3 h6
    have h9 : n < 10 ^ 9 := lt_trans h6 (by norm_num)
    rw [formatNumber, if_neg (not_le.mpr h9), if_neg (not_le.mpr h6), if_pos h3]
  · intro h3
    have h6 : n < 10 ^ 6 := lt_trans h3 (by norm_num)
    have h9 : n < 10 ^ 9 := lt_trans h3 (by norm_num)
    rw [formatNumber, if_neg (not_le.mpr h9), if_neg (not_le.mpr h6), if_neg (not_le.mpr h3)]
  · rw [formatNumber, if_neg (by norm_num), if_neg (by norm_num), if_pos (by norm_num),
      fdiv_exact 1500 (10 ^ 3) 0 6755399441055744 (by norm_num) (by norm_num) (by norm_num)
        (by norm_num),
      toFixed_eq flt 2 (1500 / 10 ^ 3) 150 (by norm_num) (by norm_num) (by norm_num)
        (by norm_num)]
    decide
  · rw [formatNumber, if_neg (by norm_num), if_pos (by norm_num),
      fdiv_eq 2300000 (10 ^ 6) 1 5179139571476070 (by norm_num) (by norm_num) (by norm_num)
        (by norm_num) (by norm_num),
      toFixed_eq flt 2 _ 230 (by norm_num) (by norm_num) (by norm_num) (by norm_num)]
    decide
  · rw [formatNumber, if_pos (by norm_num),
      fdiv_eq 4100000000 (10 ^ 9) 2 4616189618054758 (by norm_num) (by norm_num)
        (by norm_num) (by norm_num) (by norm_num),
      toFixed_eq flt 2 _ 410 (by norm_num) (by norm_num) (by norm_num) (by norm_num)]
    decide
  · rw [formatNumber, if_neg (by norm_num), if_neg (by norm_num), if_neg (by norm_num),
      toFixed_eq flt 2 750 75000 (by norm_num) (by norm_num) (by norm_num) (by norm_num)]
    decide
  · rw [formatNumber, if_neg (by norm_num), if_neg (by norm_num), if_pos (by norm_num),
      fdiv_eq 1005 (10 ^ 3) 0 4526117625507348 (by norm_num) (by norm_num) (by norm_num)
        (by norm_num) (by norm_num),
      toFixed_eq flt 2 _ 100 (by norm_num) (by norm_num) (by norm_num) (by norm_num)]
    decide
  · rintro now1 now2 t1 t2 rfl rfl
    exact ⟨rfl, rfl⟩

end FormattingClaims

/-! ## Scheduler -/

section SchedulerClaims

open TokenMonitor SolanaTokenBot

theorem step_invariant (flt : ℚ → String) (cfg : Config) (s : Scheduler) (st : Step)
    (h : s.inFlight ≤ 1 ∧ (s.bot.isRunning = true ↔ s.inFlight = 1)) :
    (step flt cfg s st).inFlight ≤ 1 ∧
    ((step flt cfg s st).bot.isRunning = true ↔ (step flt cfg s st).inFlight = 1) := by
  obtain ⟨hle, hiff⟩ := h
  cases st with
  | trigger =>
    by_cases hr : s.bot.isRunning = true
    · have e : step flt cfg s Step.trigger = s := by simp [step, hr]
      rw [e]
      exact ⟨hle, hiff⟩
    · have h0 : s.inFlight = 0 := by
        have : s.inFlight ≠ 1 := fun e => hr (hiff.mpr e)
        omega
      simp [step, hr, h0]
  | complete env =>
    by_cases h0 : s.inFlight = 0
    · have e : step flt cfg s (Step.complete env) = s := by simp [step, h0]
      rw [e]
      exact ⟨hle, hiff⟩
    · have h1 : s.inFlight = 1 := by omega
      simp [step, h1]

theorem run_invariant (flt : ℚ → String) (cfg : Config) (steps : List Step) :
    ∀ s : Scheduler, (s.inFlight ≤ 1 ∧ (s.bot.isRunning = true ↔ s.inFlight = 1)) →
      (run flt cfg s steps).inFlight ≤ 1 ∧
      ((run flt cfg s steps).bot.isRunning = true ↔ (run flt cfg s steps).inFlight = 1) := by
  induction steps with
  | nil => intro s h; exact h
  | cons st rest ih =>
    intro s h
    exact ih (step flt cfg s st) (step_invariant flt cfg s st h)

/-- C13: in every state reachable from the initial one by triggers and
completions at most one discovery cycle is in flight, and `isRunning` is true
exactly when one is.  In such a state a trigger that fires while `isRunning` is
true leaves the state unchanged (no cycle is started, none is queued), a trigger
that fires while it is false starts the one cycle, and the completion of the
cycle in flight, whatever the outcomes of its remote and sink calls, sets
`isRunning` to false and leaves no cycle in flight. -/
theorem single_cycle_in_flight (flt : ℚ → String) (cfg : Config) (known : List String)
    (steps : List Step) :
    (run flt cfg (initial known) steps).inFlight ≤ 1 ∧
    ((run flt cfg (initial known) steps).bot.isRunning = true ↔
      (run flt cfg (initial known) steps).inFlight = 1) ∧
    ((run flt cfg (initial known) steps).bot.isRunning = true →
      step flt cfg (run flt cfg (initial known) steps) Step.trigger =
        run flt cfg (initial known) steps) ∧
    ((run flt cfg (initial known) steps).bot.isRunning = false →
      (step flt cfg (run flt cfg (initial known) steps) Step.trigger).inFlight = 1 ∧
      (step flt cfg (run flt cfg (initial known) steps) Step.trigger).bot.isRunning = true) ∧
    (∀ env : CycleEnv, (run flt cfg (initial known) steps).bot.isRunning = true →
      (step flt cfg (run flt cfg (initial known) steps) (Step.complete env)).bot.isRunning
        = false ∧
      (step flt cfg (run flt cfg (initial known) steps) (Step.complete env)).inFlight = 0 ∧
      (step flt cfg (run flt cfg (initial known) steps) (Step.complete env)).bot.knownTokens =
        (checkForNewTokens flt cfg env (run flt cfg (initial known) steps).bot).1.knownTokens) := by
  obtain ⟨hle, hiff⟩ := run_invariant flt cfg steps (initial known) (by simp [initial])
  refine ⟨hle, hiff, ?_, ?_, ?_⟩
  · intro hr
    simp [step, hr]
  · intro hr
    have h0 : (run flt cfg (initial known) steps).inFlight = 0 := by
      have : (run flt cfg (initial known) steps).inFlight ≠ 1 := fun e => by
        have := hiff.mpr e
        rw [hr] at this
        exact Bool.false_ne_true this
      omega
    simp [step, hr, h0]
  · intro env hr
    have h1 := hiff.mp hr
    simp [step, h1]

end SchedulerClaims

/-! ## Risk verdict -/

section RiskClaims

open TokenMonitor

/-- C15: `assessRisk` returns false when the risk payload is absent; for a
payload it returns true exactly when the payload is flagged rugged, or its score
exceeds 50, or its snipers count exceeds 0, or its insiders count exceeds 0.  A
score of exactly 50 without another signal is not risky, and missing snipers and
insiders counts are no signal. -/
theorem assessRisk_verdict (r : RiskData) :
    assessRisk none = false ∧
    (assessRisk (some r) = true ↔
      (r.rugged = true ∨ (∃ s, r.score = some s ∧ s > 50) ∨
       (∃ c, r.snipersCount = some c ∧ c > 0) ∨
       (∃ c, r.insidersCount = some c ∧ c > 0))) ∧
    assessRisk (some { rugged := false, score := some 50, snipersCount := none,
                       insidersCount := none }) = false ∧
    assessRisk (some { rugged := false, score := some 51, snipersCount := none,
                       insidersCount := none }) = true ∧
    (∀ sc : Option ℚ, (∀ s, sc = some s → s ≤ 50) →
      assessRisk (some { rugged := false, score := sc, snipersCount := none,
                         insidersCount := none }) = false) := by
  refine ⟨rfl, ?_, ?_, ?_, ?_⟩
  · cases hs : r.score <;> cases hn : r.snipersCount <;> cases hi : r.insidersCount <;>
      simp [assessRisk, hs, hn, hi, or_assoc]
  · simp [assessRisk]
  · simp [assessRisk]; norm_num
  · intro sc hsc
    cases sc with
    | none => simp [assessRisk]
    | some s => simpa [assessRisk] using hsc s rfl

end RiskClaims

/-! ## Adapters -/

section Adapters

open TokenMonitor

theorem mapThrowing_none {α β : Type} (f : α → Option β) (l : List α)
    (h : ∃ a ∈ l, f a = none) : mapThrowing f l = none := by
  induction l with
  | nil => simp at h
  | cons a rest ih =>
    obtain ⟨x, hx, hf⟩ := h
    cases hfa : f a with
    | none => simp [mapThrowing, hfa]
    | some b =>
      have hx2 : x ∈ rest := by
        rcases List.mem_cons.mp hx with rfl | hx
        · rw [hfa] at hf; cases hf
        · exact hx
      simp [mapThrowing, hfa, ih ⟨x, hx2, hf⟩]

theorem mapThrowing_some {α β : Type} (f : α → Option β) (l : List α)
    (h : ∀ a ∈ l, f a ≠ none) :
    ∃ bs, mapThrowing f l = some bs ∧ bs.map some = l.map f := by
  induction l with
  | nil => exact ⟨[], rfl, rfl⟩
  | cons a rest ih =>
    obtain ⟨bs, hbs, hmap⟩ := ih (fun x hx => h x (List.mem_cons_of_mem _ hx))
    cases hfa : f a with
    | none => exact absurd hfa (h a (List.mem_cons_self _ _))
    | some b =>
      refine ⟨b :: bs, by simp [mapThrowing, hfa, hbs], ?_⟩
      simp [hmap, hfa]

theorem parseTrackerToken_eq_none (now : ℚ) (d : TrackerRecord) :
    parseTrackerToken now d = none ↔ d.token = none := by
  unfold parseTrackerToken
  cases d.token <;> simp

end Adapters

section AdapterClaims

open TokenMonitor

/-- C17: whatever the remote request gives, `getTokensFromTracker` returns a
list: the empty list when the request fails or the body is not a list, the empty
list as soon as one record of the body lacks its `token` object, and otherwise
the parsed records, one per record of the body and in the same order.  When it
returns the empty list, the candidates of `getNewTokens` are still the Helius
records (when that adapter is enabled), followed by the ledger scan when those
are empty too. -/
theorem tracker_errors_contained (cfg : Config) (r : Remote) :
    (r.tracker = none → getTokensFromTracker r = []) ∧
    (∀ data, r.tracker = some data → (∃ d ∈ data, d.token = none) →
      getTokensFromTracker r = []) ∧
    (∀ data, r.tracker = some data → (∀ d ∈ data, d.token ≠ none) →
      (getTokensFromTracker r).map some = data.map (parseTrackerToken r.trackerNow) ∧
      (getTokensFromTracker r).length = data.length) ∧
    (getTokensFromTracker r = [] ∨
      ∃ data, r.tracker = some data ∧
        (getTokensFromTracker r).map some = data.map (parseTrackerToken r.trackerNow)) ∧
    (getTokensFromTracker r = [] →
      (aggregate cfg r).candidates =
        (if truthyStr cfg.heliusApiKey then getTokensFromHelius r else []) ++
        (if (if truthyStr cfg.heliusApiKey then getTokensFromHelius r else []) = []
         then getTokensFromRPC cfg r else [])) := by
  have hfail : ∀ data, r.tracker = some data → (∃ d ∈ data, d.token = none) →
      getTokensFromTracker r = [] := by
    intro data hdata ⟨d, hd, hnone⟩
    have := mapThrowing_none (parseTrackerToken r.trackerNow) data
      ⟨d, hd, (parseTrackerToken_eq_none _ d).mpr hnone⟩
    simp [getTokensFromTracker, hdata, this]
  have hok : ∀ data, r.tracker = some data → (∀ d ∈ data, d.token ≠ none) →
      (getTokensFromTracker r).map some = data.map (parseTrackerToken r.trackerNow) := by
    intro data hdata hall
    obtain ⟨bs, hbs, hmap⟩ := mapThrowing_some (parseTrackerToken r.trackerNow) data
      (fun d hd hnone => hall d hd ((parseTrackerToken_eq_none _ d).mp hnone))
    simp [getTokensFromTracker, hdata, hbs, hmap]
  refine ⟨?_, hfail, ?_, ?_, ?_⟩
  · intro h
    simp [getTokensFromTracker, h]
  · intro data hdata hall
    have h := hok data hdata hall
    refine ⟨h, ?_⟩
    have := congrArg List.length h
    simpa using this
  · cases hdata : r.tracker with
    | none => exact Or.inl (by simp [getTokensFromTracker, hdata])
    | some data =>
      by_cases hall : ∀ d ∈ data, d.token ≠ none
      · exact Or.inr ⟨data, rfl, hok data hdata hall⟩
      · push_neg at hall
        exact Or.inl (hfail data hdata hall)
  · intro hempty
    rw [aggregate_candidates, hempty]
    simp

end AdapterClaims

section NormalizationClaims

open TokenMonitor

/-- C16 (as stated, refuted): a Tracker record whose token reports
`created_time = 0` is parsed, at clock reading 60000, into a record whose
`createdTime` is 60000 (the current time), not `0 * 1000`. -/
theorem reported_zero_created_time_replaced :
    ((sampleTrackerRecord "A" 0).token.bind (·.creation)).bind (·.created_time) = some 0 ∧
    (parseTrackerToken 60000 (sampleTrackerRecord "A" 0)).map (·.createdTime) = some 60000 ∧
    (60000 : ℚ) ≠ 0 * 1000 := by
  refine ⟨rfl, ?_, by norm_num⟩
  simp [parseTrackerToken, sampleTrackerRecord, truthyNum]

/-- C16 (amended): a Tracker record with a `token` object is parsed into a Token
Record whose mint is `token.mint`; whose liquidity, market cap and price are the
first pool's values, and 0 when there is no first pool or the value is absent;
whose holders is the reported count, and 0 when absent; whose risk verdict is
`assessRisk` of the risk payload, false when there is none; and whose
`createdTime` is `created_time * 1000` when `created_time` is reported and not
zero, and the current time when it is absent or zero.  `parseHeliusToken` gives
0 for liquidity, market cap, price and holders, no risk, and the current time. -/
theorem adapter_defaults (now : ℚ) (ti : TrackerTokenInfo) (pools : Option (List TrackerPool))
    (holders : Option ℚ) (risk : Option RiskData) (h : HeliusRecord) :
    (∃ t, parseTrackerToken now
        { token := some ti, pools := pools, holders := holders, risk := risk } = some t ∧
      t.mint = ti.mint ∧
      t.liquidityUsd = ((pools.bind List.head?).bind (·.liquidityUsd)).getD 0 ∧
      t.marketCapUsd = ((pools.bind List.head?).bind (·.marketCapUsd)).getD 0 ∧
      t.priceUsd = some (((pools.bind List.head?).bind (·.priceUsd)).getD 0) ∧
      t.holders = some (holders.getD 0) ∧
      t.risky = assessRisk risk ∧
      (risk = none → t.risky = false) ∧
      (∀ c, ti.creation.bind (·.created_time) = some c → c ≠ 0 → t.createdTime = c * 1000) ∧
      (ti.creation.bind (·.created_time) = some 0 → t.createdTime = now) ∧
      (ti.creation.bind (·.created_time) = none → t.createdTime = now)) ∧
    ((parseHeliusToken now h).mint = h.mint ∧
      (parseHeliusToken now h).liquidityUsd = 0 ∧
      (parseHeliusToken now h).marketCapUsd = 0 ∧
      (parseHeliusToken now h).priceUsd = some 0 ∧
      (parseHeliusToken now h).holders = some 0 ∧
      (parseHeliusToken now h).risky = false ∧
      (parseHeliusToken now h).createdTime = now) := by
  have hz : ∀ o : Option ℚ, orZero o = o.getD 0 := by
    intro o; cases o <;> rfl
  refine ⟨⟨_, rfl, rfl, hz _, hz _, by simp [hz], by simp [hz], rfl, ?_, ?_, ?_, ?_⟩,
    rfl, rfl, rfl, rfl, rfl, rfl, rfl⟩
  · intro hr
    simp [hr, assessRisk]
  · intro c hc hne
    simp [hc, truthyNum, orZero, hne]
  · intro hc
    simp [hc, truthyNum]
  · intro hc
    simp [hc, truthyNum]

end NormalizationClaims

section RoundingClaims

theorem toFixed_neg (flt : ℚ → String) (d : Nat) (x : ℚ) (hx : x < 0) :
    toFixed flt d x = "-" ++ toFixed flt d (-x) := by
  have hpos : ¬ (-x < 0) := by linarith
  unfold toFixed
  rw [if_pos hx, if_neg hpos, abs_neg]
  simp

/-- C18: the suffix is chosen from the unrounded value.  Every `n` with
`999995 <= n < 1000000` is formatted as `1000.00K` and every `n` with
`999.995 <= n < 1000` as `1000.00`; a negative `n` gets no suffix whatever its
magnitude: the result is `toFixed(2)` of `n`, a minus sign followed by the
two-decimal text of `-n` when `-n` is below `10 ^ 21`.  Both copies of
`formatNumber` behave so. -/
theorem suffix_chosen_before_rounding (flt : ℚ → String) (n : ℚ) :
    (999995 ≤ n → n < 1000000 → formatNumber flt n = "1000.00K") ∧
    (999995 / 1000 ≤ n → n < 1000 → formatNumber flt n = "1000.00") ∧
    (n < 0 → formatNumber flt n = toFixed flt 2 n) ∧
    (n < 0 → -n < 10 ^ 21 →
      ∃ r : ℕ, (r : ℚ) - 1 / 2 ≤ -n * 100 ∧ -n * 100 < (r : ℚ) + 1 / 2 ∧
        formatNumber flt n =
          "-" ++ (Nat.repr (r / 100) ++ "." ++
            String.mk [Nat.digitChar (r % 100 / 10), Nat.digitChar (r % 10)])) ∧
    formatNumber flt 999995 = "1000.00K" ∧
    formatNumber flt 1000000 = "1.00M" ∧
    formatNumber flt (-5000000000) = "-5000000000.00" ∧
    TelegramService.formatNumber flt n = formatNumber flt n := by
  have hK : ∀ m : ℚ, 999995 ≤ m → m < 1000000 → formatNumber flt m = "1000.00K" := by
    intro m h1 h2
    obtain ⟨q1, q2⟩ := fdiv_near_thousand m h1 h2
    rw [formatNumber, if_neg (by linarith), if_neg (by linarith), if_pos (by linarith)]
    generalize fdiv m (10 ^ 3) = q at q1 q2
    rw [toFixed_eq flt 2 q 100000 (by linarith) (by linarith)
      (by norm_num; linarith) (by norm_num; linarith)]
    decide
  have hneg : ∀ m : ℚ, m < 0 → formatNumber flt m = toFixed flt 2 m := by
    intro m hm
    rw [formatNumber, if_neg (by linarith), if_neg (by linarith), if_neg (by linarith)]
  refine ⟨hK n, ?_, hneg n, ?_, hK 999995 (by norm_num) (by norm_num), ?_, ?_, rfl⟩
  · intro h1 h2
    rw [formatNumber, if_neg (by linarith), if_neg (by linarith), if_neg (by linarith),
      toFixed_eq flt 2 n 100000 (by linarith) (by linarith)
        (by norm_num; linarith) (by norm_num; linarith)]
    decide
  · intro hn h21
    obtain ⟨r, hlo, hhi, hfix⟩ := toFixed_two_decimals flt (-n) (by linarith) h21
    exact ⟨r, hlo, hhi, by rw [hneg n hn, toFixed_neg flt 2 n hn, hfix]⟩
  · rw [formatNumber, if_neg (by norm_num), if_pos (by norm_num),
      fdiv_exact 1000000 (10 ^ 6) 0 4503599627370496 (by norm_num) (by norm_num)
        (by norm_num) (by norm_num),
      toFixed_eq flt 2 (1000000 / 10 ^ 6) 100 (by norm_num) (by norm_num) (by norm_num)
        (by norm_num)]
    decide
  · rw [hneg _ (by norm_num), toFixed_neg flt 2 _ (by norm_num),
      toFixed_eq flt 2 (- -5000000000) 500000000000 (by norm_num) (by norm_num) (by norm_num)
        (by norm_num)]
    decide

end RoundingClaims

/-! ## Message formatting -/

section MessageFormatting

theorem numberToString_nat (flt : ℚ → String) (k : ℕ) (hk : (k : ℚ) < 10 ^ 21) :
    numberToString flt (k : ℚ) = Nat.repr k := by
  unfold numberToString
  have hnn : (0 : ℚ) ≤ (k : ℚ) := Nat.cast_nonneg k
  rw [if_pos ⟨by simp, by rw [abs_of_nonneg hnn]; exact hk⟩, if_neg (not_lt.mpr hnn)]
  simp

theorem formatNumber_50000 (flt : ℚ → String) : formatNumber flt 50000 = "50.00K" := by
  rw [formatNumber, if_neg (by norm_num), if_neg (by norm_num), if_pos (by norm_num),
    fdiv_exact 50000 (10 ^ 3) 5 7036874417766400 (by norm_num) (by norm_num) (by norm_num)
      (by norm_num),
    toFixed_eq flt 2 (50000 / 10 ^ 3) 5000 (by norm_num) (by norm_num) (by norm_num)
      (by norm_num)]
  decide

theorem formatNumber_5000 (flt : ℚ → String) : formatNumber flt 5000 = "5.00K" := by
  rw [formatNumber, if_neg (by norm_num), if_neg (by norm_num), if_pos (by norm_num),
    fdiv_exact 5000 (10 ^ 3) 2 5629499534213120 (by norm_num) (by norm_num) (by norm_num)
      (by norm_num),
    toFixed_eq flt 2 (5000 / 10 ^ 3) 500 (by norm_num) (by norm_num) (by norm_num)
      (by norm_num)]
  decide

theorem age_two_minutes (flt : ℚ → String) (now created : ℚ)
    (hlo : 120000 ≤ now - created) (hhi : now - created < 180000) :
    numberToString flt ((⌊(now - created) / 60000⌋ : ℤ) : ℚ) = "2" := by
  have hfloor : ⌊(now - created) / 60000⌋ = ((2 : ℕ) : ℤ) := by
    rw [Int.floor_eq_iff]
    constructor
    · rw [le_div_iff₀ (by norm_num)]; norm_num; linarith
    · rw [div_lt_iff₀ (by norm_num)]; norm_num; linarith
  rw [hfloor]
  have := numberToString_nat flt 2 (by norm_num)
  simpa using this

/-- The message of `formatTokenMessage` for the record `sampleToken mint name
created` read two minutes (and less than three) after its creation. -/
theorem formatTokenMessage_sample (flt : ℚ → String) (mint name : String) (now created : ℚ)
    (hlo : 120000 ≤ now - created) (hhi : now - created < 180000) :
    formatTokenMessage flt now (sampleToken mint name created) =
      "🪙 **New Token Detected** ✅\n\n**" ++ name ++ "** (SMP)\n📍 **Address:** `" ++ mint ++
      "`\n💰 **Market Cap:** $50.00K\n💧 **Liquidity:** $5.00K\n📊 **Price:** $N/A\n" ++
      "👥 **Holders:** N/A\n⏰ **Age:** 2 minutes\n\n🔗 **Links:**\n" ++
      "• [DexScreener](https://dexscreener.com/solana/" ++ mint ++ ")\n" ++
      "• [Solscan](https://solscan.io/token/" ++ mint ++ ")\n" ++
      "• [Jupiter](https://jup.ag/swap/SOL-" ++ mint ++ ")\n\n\n\n#Solana #NewToken #SMP" := by
  have hage := age_two_minutes flt now created hlo hhi
  simp only [formatTokenMessage, sampleToken, formatNumber_50000, formatNumber_5000, hage,
    truthyNum, truthyStr, strOrUndefined]
  simp [String.append_assoc]

end MessageFormatting

section MessageClaims

/-- C11 (as stated, refuted): the record `X` has a price field, equal to 0; its
message shows the placeholder `N/A` on the price line, not the eight-decimal
text `0.00000000` of that price. -/
theorem zero_price_shown_as_placeholder :
    (sampleToken "X" "x" 0).priceUsd = some 0 ∧
    formatTokenMessage (fun _ => "") 120000 (sampleToken "X" "x" 0) =
      "🪙 **New Token Detected** ✅\n\n**x** (SMP)\n📍 **Address:** `X`\n💰 **Market Cap:** $50.00K\n💧 **Liquidity:** $5.00K\n📊 **Price:** $N/A\n👥 **Holders:** N/A\n⏰ **Age:** 2 minutes\n\n🔗 **Links:**\n• [DexScreener](https://dexscreener.com/solana/X)\n• [Solscan](https://solscan.io/token/X)\n• [Jupiter](https://jup.ag/swap/SOL-X)\n\n\n\n#Solana #NewToken #SMP" ∧
    toFixed (fun _ => "") 8 0 = "0.00000000" := by
  refine ⟨rfl, ?_, ?_⟩
  · rw [formatTokenMessage_sample (fun _ => "") "X" "x" 120000 0 (by norm_num) (by norm_num)]
    simp
  · rw [toFixed_eq (fun _ => "") 8 0 0 (by norm_num) (by norm_num) (by norm_num) (by norm_num)]
    decide

end MessageClaims

section MessagePlaceholders

/-- C11 (amended): `formatTokenMessage` and `formatTokenAlert` return a message
for every Token Record, whichever of name, symbol, description, image, price and
holders are absent.  The price line shows `N/A` when the price is absent or
zero and `toFixed(8)` of the price otherwise (eight decimals of the nearest
multiple of `1e-8` for a positive price below `10 ^ 21`); the holders line shows
`N/A` when the count is absent or zero; an absent or empty description
contributes no text; an absent name or symbol is printed as `undefined`. -/
theorem message_placeholders (flt : ℚ → String) (now : ℚ) (token : Token) :
    formatTokenMessage flt now token =
      "🪙 **New Token Detected** " ++ (if token.risky then "⚠️" else "✅") ++ "\n\n" ++
      "**" ++ token.name.getD "undefined" ++ "** (" ++ token.symbol.getD "undefined" ++ ")\n" ++
      "📍 **Address:** `" ++ token.mint ++ "`\n" ++
      "💰 **Market Cap:** $" ++ formatNumber flt token.marketCapUsd ++ "\n" ++
      "💧 **Liquidity:** $" ++ formatNumber flt token.liquidityUsd ++ "\n" ++
      "📊 **Price:** $" ++
        (match token.priceUsd with
          | none => "N/A"
          | some p => if p = 0 then "N/A" else toFixed flt 8 p) ++ "\n" ++
      "👥 **Holders:** " ++
        (match token.holders with
          | none => "N/A"
          | some h => if h = 0 then "N/A" else numberToString flt h) ++ "\n" ++
      "⏰ **Age:** " ++
        numberToString flt ((⌊(now - token.createdTime) / 60000⌋ : ℤ) : ℚ) ++ " minutes\n\n" ++
      "🔗 **Links:**\n" ++
      "• [DexScreener](https://dexscreener.com/solana/" ++ token.mint ++ ")\n" ++
      "• [Solscan](https://solscan.io/token/" ++ token.mint ++ ")\n" ++
      "• [Jupiter](https://jup.ag/swap/SOL-" ++ token.mint ++ ")\n\n" ++
        (match token.description with
          | none => ""
          | some d => if d = "" then "" else "📝 **Description:** " ++ d) ++ "\n\n" ++
      "#Solana #NewToken #" ++ token.symbol.getD "undefined" ∧
    TelegramService.formatTokenAlert flt now token =
      "🪙 **New Token Alert** " ++ (if token.risky then "⚠️" else "✅") ++ "\n\n" ++
      "**" ++ token.name.getD "undefined" ++ "** (" ++ token.symbol.getD "undefined" ++ ")\n" ++
      "📍 **Address:** `" ++ token.mint ++ "`\n" ++
      "💰 **Market Cap:** $" ++ TelegramService.formatNumber flt token.marketCapUsd ++ "\n" ++
      "💧 **Liquidity:** $" ++ TelegramService.formatNumber flt token.liquidityUsd ++ "\n" ++
      "📊 **Price:** $" ++
        (match token.priceUsd with
          | none => "N/A"
          | some p => if p = 0 then "N/A" else toFixed flt 8 p) ++ "\n" ++
      "👥 **Holders:** " ++
        (match token.holders with
          | none => "N/A"
          | some h => if h = 0 then "N/A" else numberToString flt h) ++ "\n" ++
      "⏰ **Age:** " ++
        numberToString flt ((⌊(now - token.createdTime) / 60000⌋ : ℤ) : ℚ) ++ " minutes\n\n" ++
      "🔗 **Links:**\n" ++
      "• [DexScreener](https://dexscreener.com/solana/" ++ token.mint ++ ")\n" ++
      "• [Solscan](https://solscan.io/token/" ++ token.mint ++ ")\n" ++
      "• [Jupiter](https://jup.ag/swap/SOL-" ++ token.mint ++ ")\n\n" ++
        (match token.description with
          | none => ""
          | some d => if d = "" then "" else "📝 **Description:** " ++ d) ++ "\n\n" ++
      "#Solana #NewToken #" ++ token.symbol.getD "undefined" ∧
    (∀ p : ℚ, 0 < p → p < 10 ^ 21 →
      ∃ r : ℕ, (r : ℚ) - 1 / 2 ≤ p * 10 ^ 8 ∧ p * 10 ^ 8 < (r : ℚ) + 1 / 2 ∧
        toFixed flt 8 p =
          Nat.repr (r / 10 ^ 8) ++ ("." ++ padZeros 8 (Nat.repr (r % 10 ^ 8)))) ∧
    toFixed flt 8 (1234 / 10 ^ 8) = "0.00001234" ∧
    toFixed flt 8 (3 / 2) = "1.50000000" := by
  have hprice : (if truthyNum token.priceUsd = true then toFixed flt 8 (orZero token.priceUsd)
      else "N/A") =
      (match token.priceUsd with
        | none => "N/A"
        | some p => if p = 0 then "N/A" else toFixed flt 8 p) := by
    cases hp : token.priceUsd with
    | none => simp [truthyNum]
    | some p => by_cases h0 : p = 0 <;> simp [truthyNum, orZero, h0]
  have hholders : (if truthyNum token.holders = true
      then numberToString flt (orZero token.holders) else "N/A") =
      (match token.holders with
        | none => "N/A"
        | some h => if h = 0 then "N/A" else numberToString flt h) := by
    cases hp : token.holders with
    | none => simp [truthyNum]
    | some p => by_cases h0 : p = 0 <;> simp [truthyNum, orZero, h0]
  have hdesc : (if truthyStr token.description = true
      then "📝 **Description:** " ++ strOrUndefined token.description else "") =
      (match token.description with
        | none => ""
        | some d => if d = "" then "" else "📝 **Description:** " ++ d) := by
    cases hp : token.description with
    | none => simp [truthyStr]
    | some d => by_cases h0 : d = "" <;> simp [truthyStr, strOrUndefined, h0]
  have hundef : ∀ o : Option String, strOrUndefined o = o.getD "undefined" := by
    intro o; cases o <;> rfl
  refine ⟨?_, ?_, ?_, ?_, ?_⟩
  · simp only [formatTokenMessage, hprice, hholders, hdesc]
    simp only [hundef]
  · simp only [TelegramService.formatTokenAlert, hprice, hholders, hdesc]
    simp only [hundef]
  · intro p hp h21
    have hnn : (0 : ℤ) ≤ ⌊p * 10 ^ 8 + 1 / 2⌋ := by
      apply Int.floor_nonneg.mpr
      positivity
    obtain ⟨r, hr⟩ := Int.eq_ofNat_of_zero_le hnn
    have hlo : (r : ℚ) ≤ p * 10 ^ 8 + 1 / 2 := by
      have := Int.floor_le (p * 10 ^ 8 + 1 / 2)
      rw [hr] at this
      exact_mod_cast this
    have hhi : p * 10 ^ 8 + 1 / 2 < r + 1 := by
      have := Int.lt_floor_add_one (p * 10 ^ 8 + 1 / 2)
      rw [hr] at this
      exact_mod_cast this
    refine ⟨r, by linarith, by linarith, ?_⟩
    rw [toFixed_eq flt 8 p r hp.le h21 hlo hhi]
    simp
  · rw [toFixed_eq flt 8 (1234 / 10 ^ 8) 1234 (by norm_num) (by norm_num) (by norm_num)
      (by norm_num)]
    decide
  · rw [toFixed_eq flt 8 (3 / 2) 150000000 (by norm_num) (by norm_num) (by norm_num)
      (by norm_num)]
    decide

end MessagePlaceholders

/-! ## Cycles over tracked tokens -/

section TrackedCycles

open TokenMonitor SolanaTokenBot

theorem parse_sampleTrackerRecord (now : ℚ) (mint : String) (created : ℚ) (hc : created ≠ 0) :
    parseTrackerToken now (sampleTrackerRecord mint created) =
      some (sampleTracked mint created) := by
  simp [parseTrackerToken, sampleTrackerRecord, sampleTracked, truthyNum, orZero, assessRisk, hc]

theorem aggregate_two_tracked (now : ℚ) (m1 m2 : String) (c1 c2 : ℚ) (h1 : c1 ≠ 0)
    (h2 : c2 ≠ 0) :
    (aggregate sampleConfigBoth
      (sampleTrackerRemote now [sampleTrackerRecord m1 c1, sampleTrackerRecord m2 c2])).candidates
      = [sampleTracked m1 c1, sampleTracked m2 c2] := by
  rw [aggregate_candidates]
  simp [getTokensFromTracker, getTokensFromHelius, sampleTrackerRemote, sampleRemote,
    sampleConfigBoth, sampleConfig, truthyStr, mapThrowing, parse_sampleTrackerRecord, h1, h2]

theorem aggregate_one_tracked (now : ℚ) (m1 : String) (c1 : ℚ) (h1 : c1 ≠ 0) :
    (aggregate sampleConfigBoth
      (sampleTrackerRemote now [sampleTrackerRecord m1 c1])).candidates
      = [sampleTracked m1 c1] := by
  rw [aggregate_candidates]
  simp [getTokensFromTracker, getTokensFromHelius, sampleTrackerRemote, sampleRemote,
    sampleConfigBoth, sampleConfig, truthyStr, mapThrowing, parse_sampleTrackerRecord, h1]

theorem sampleTracked_fresh (now : ℚ) (mint : String) (created : ℚ)
    (h : now - created * 1000 ≤ 300000) :
    isTokenNew sampleConfigBoth now (sampleTracked mint created) = true := by
  simp only [isTokenNew, sampleTracked, sampleConfigBoth, sampleConfig, decide_eq_true_eq]
  linarith

theorem sampleTracked_qualifies (now : ℚ) (mint : String) (created : ℚ)
    (h : now - created * 1000 ≤ 300000) :
    shouldProcessToken sampleConfigBoth now (sampleTracked mint created) = true := by
  have h2 : now - created * 1000 ≤ 5 * 60 * 1000 := by linarith
  simp [shouldProcessToken, sampleTracked, sampleConfigBoth, sampleConfig, h2]
  norm_num

end TrackedCycles

/-! ## Position of a token in the loop -/

section LoopPositions

open TokenMonitor SolanaTokenBot

theorem processLoop_append (flt : ℚ → String) (cfg : Config) (env : CycleEnv)
    (pre post : List Token) :
    ∀ (i : Nat) (processed : List String),
      processLoop flt cfg env i processed (pre ++ post) =
        ((processLoop flt cfg env (i + pre.length)
            (processLoop flt cfg env i processed pre).1 post).1,
         (processLoop flt cfg env i processed pre).2 ++
          (processLoop flt cfg env (i + pre.length)
            (processLoop flt cfg env i processed pre).1 post).2) := by
  induction pre with
  | nil =>
    intro i processed
    simp [processLoop_nil]
  | cons t rest ih =>
    intro i processed
    have hidx : i + (t :: rest).length = i + 1 + rest.length := by
      simp only [List.length_cons]; omega
    rw [hidx, List.cons_append]
    by_cases h : t.mint ∈ processed
    · rw [processLoop_cons_seen flt cfg env i processed t (rest ++ post) h,
        processLoop_cons_seen flt cfg env i processed t rest h, ih (i + 1) processed]
    · rw [processLoop_cons_fresh flt cfg env i processed t (rest ++ post) h,
        processLoop_cons_fresh flt cfg env i processed t rest h,
        ih (i + 1) (setAdd processed t.mint)]
      simp [List.append_assoc]

/-- The loop at a token that has not been processed when it is reached: the
events are those of the tokens before it, then those of `processNewToken` for
it at its position, then those of the loop over the tokens after it, run from
the processed set that now holds its mint. -/
theorem processLoop_at (flt : ℚ → String) (cfg : Config) (env : CycleEnv)
    (pre post : List Token) (t : Token) (i : Nat) (processed : List String)
    (h : t.mint ∉ (processLoop flt cfg env i processed pre).1) :
    processLoop flt cfg env i processed (pre ++ t :: post) =
      ((processLoop flt cfg env (i + pre.length + 1)
          (setAdd (processLoop flt cfg env i processed pre).1 t.mint) post).1,
       (processLoop flt cfg env i processed pre).2 ++
        (processNewToken flt cfg (env.clock (i + pre.length)) (env.delivers (i + pre.length)) t ++
          (processLoop flt cfg env (i + pre.length + 1)
            (setAdd (processLoop flt cfg env i processed pre).1 t.mint) post).2)) := by
  rw [processLoop_append, processLoop_cons_fresh flt cfg env _ _ t post h]

theorem processLoop_delivers_irrelevant (flt : ℚ → String) (cfg : Config) (env env2 : CycleEnv)
    (hclock : env2.clock = env.clock) (tokens : List Token) :
    ∀ (i : Nat) (processed : List String),
      (processLoop flt cfg env2 i processed tokens).1 =
        (processLoop flt cfg env i processed tokens).1 ∧
      evaluatedTokens (processLoop flt cfg env2 i processed tokens).2 =
        evaluatedTokens (processLoop flt cfg env i processed tokens).2 ∧
      sinkCalls (processLoop flt cfg env2 i processed tokens).2 =
        sinkCalls (processLoop flt cfg env i processed tokens).2 := by
  induction tokens with
  | nil =>
    intro i processed
    simp [processLoop_nil]
  | cons t rest ih =>
    intro i processed
    by_cases h : t.mint ∈ processed
    · rw [processLoop_cons_seen flt cfg env i processed t rest h,
        processLoop_cons_seen flt cfg env2 i processed t rest h]
      exact ih (i + 1) processed
    · rw [processLoop_cons_fresh flt cfg env i processed t rest h,
        processLoop_cons_fresh flt cfg env2 i processed t rest h]
      obtain ⟨h1, h2, h3⟩ := ih (i + 1) (setAdd processed t.mint)
      simp only [evaluatedTokens_append, sinkCalls_append, evaluatedTokens_processNewToken,
        sinkCalls_processNewToken, hclock, h1, h2, h3]
      exact ⟨trivial, trivial, trivial⟩

theorem mem_sinkCalls_of_event (evs : List Event) (t : Token) (msg : String) (d : Bool)
    (h : Event.sinkCall t msg d ∈ evs) : t ∈ sinkCalls evs := by
  induction evs with
  | nil => simp at h
  | cons e rest ih =>
    rcases List.mem_cons.mp h with rfl | h2
    · simp [sinkCalls]
    · have := ih h2
      cases e <;> simp [sinkCalls, this]

theorem mem_evaluatedTokens_of_event (evs : List Event) (t : Token) (q : Bool)
    (h : Event.evaluated t q ∈ evs) : t ∈ evaluatedTokens evs := by
  induction evs with
  | nil => simp at h
  | cons e rest ih =>
    rcases List.mem_cons.mp h with rfl | h2
    · simp [evaluatedTokens]
    · have := ih h2
      cases e <;> simp [evaluatedTokens, this]

/-- The first record of a mint that is not processed yet is handed to
`processNewToken` at some position of the loop. -/
theorem processLoop_first (flt : ℚ → String) (cfg : Config) (env : CycleEnv) (t : Token)
    (tokens : List Token) :
    ∀ (i : Nat) (processed : List String),
      tokens.find? (fun u => decide (u.mint = t.mint)) = some t → t.mint ∉ processed →
      ∃ j, ∀ e ∈ processNewToken flt cfg (env.clock j) (env.delivers j) t,
        e ∈ (processLoop flt cfg env i processed tokens).2 := by
  induction tokens with
  | nil => intro i processed hf; simp at hf
  | cons u rest ih =>
    intro i processed hf hp
    by_cases hu : u.mint = t.mint
    · have hut : u = t := by simpa [List.find?_cons, hu] using hf
      subst hut
      rw [processLoop_cons_fresh flt cfg env i processed u rest hp]
      exact ⟨i, fun e he => List.mem_append_left _ he⟩
    · have hf2 : rest.find? (fun u => decide (u.mint = t.mint)) = some t := by
        simpa [List.find?_cons, hu] using hf
      by_cases h : u.mint ∈ processed
      · rw [processLoop_cons_seen flt cfg env i processed u rest h]
        exact ih (i + 1) processed hf2 hp
      · rw [processLoop_cons_fresh flt cfg env i processed u rest h]
        have hp2 : t.mint ∉ setAdd processed u.mint := by
          rw [mem_setAdd]
          rintro (e | e)
          · exact hp e
          · exact hu e.symm
        obtain ⟨j, hj⟩ := ih (i + 1) (setAdd processed u.mint) hf2 hp2
        exact ⟨j, fun e he => List.mem_append_right _ (hj e he)⟩

theorem find?_filter_first (p : Token → Bool) (t : Token) (l : List Token)
    (hf : l.find? (fun u => decide (u.mint = t.mint)) = some t) (hp : p t = true) :
    (l.filter p).find? (fun u => decide (u.mint = t.mint)) = some t := by
  induction l with
  | nil => simp at hf
  | cons u rest ih =>
    by_cases hu : u.mint = t.mint
    · have hut : u = t := by simpa [List.find?_cons, hu] using hf
      subst hut
      simp [List.filter_cons, hp, List.find?_cons]
    · have hf2 : rest.find? (fun u => decide (u.mint = t.mint)) = some t := by
        simpa [List.find?_cons, hu] using hf
      by_cases hpu : p u = true
      · simp [List.filter_cons, hpu, List.find?_cons, hu, ih hf2]
      · simp [List.filter_cons, hpu, ih hf2]

theorem filter_mint_eq_singleton (l : List Token) (t : Token)
    (hnd : (l.map (·.mint)).Nodup) (ht : t ∈ l) :
    l.filter (fun u => decide (u.mint = t.mint)) = [t] := by
  induction l with
  | nil => simp at ht
  | cons u rest ih =>
    simp only [List.map_cons, List.nodup_cons] at hnd
    obtain ⟨hu, hrest⟩ := hnd
    rcases List.mem_cons.mp ht with rfl | ht
    · have : rest.filter (fun u => decide (u.mint = t.mint)) = [] := by
        rw [List.filter_eq_nil_iff]
        intro v hv hvm
        exact hu (List.mem_map.mpr ⟨v, hv, by simpa using hvm⟩)
      simp [List.filter_cons, this]
    · have hne : u.mint ≠ t.mint := fun e =>
        hu (List.mem_map.mpr ⟨t, ht, e.symm⟩)
      simp [List.filter_cons, hne, ih hrest ht]

end LoopPositions

section FailureContainment

open TokenMonitor SolanaTokenBot

theorem evaluated_mem_processNewToken (flt : ℚ → String) (cfg : Config) (now : ℚ)
    (d : Bool) (t : Token) :
    Event.evaluated t (shouldProcessToken cfg now t) ∈ processNewToken flt cfg now d t := by
  unfold processNewToken
  by_cases h : shouldProcessToken cfg now t = true
  · simp [h]
  · simp [h]

theorem sinkCall_mem_processNewToken (flt : ℚ → String) (cfg : Config) (now : ℚ)
    (d : Bool) (t : Token) (h : shouldProcessToken cfg now t = true) :
    Event.sinkCall t (formatTokenMessage flt now t) d ∈ processNewToken flt cfg now d t := by
  unfold processNewToken
  simp [h]

theorem getNewTokens_two_tracked (now : ℚ) (m1 m2 : String) (c1 c2 : ℚ) (h1 : c1 ≠ 0)
    (h2 : c2 ≠ 0) (f1 : now - c1 * 1000 ≤ 300000) (f2 : now - c2 * 1000 ≤ 300000) :
    (getNewTokens sampleConfigBoth []
      (sampleTrackerRemote now [sampleTrackerRecord m1 c1, sampleTrackerRecord m2 c2])).2 =
      [sampleTracked m1 c1, sampleTracked m2 c2] := by
  unfold getNewTokens
  rw [aggregate_two_tracked now m1 m2 c1 c2 h1 h2, noveltyFilter_snd]
  have e : (sampleTrackerRemote now
      [sampleTrackerRecord m1 c1, sampleTrackerRecord m2 c2]).now = now := rfl
  simp [e, sampleTracked_fresh now m1 c1 f1, sampleTracked_fresh now m2 c2 f2]

/-- C12 (as stated, refuted): the Tracker reports two records of the same mint
`A`, both returned by `getNewTokens` and both meeting the qualification rule;
the sink call for the first one fails.  The second one is not handed to
`processNewToken` and no sink call is made for it. -/
theorem later_token_of_same_mint_skipped :
    (getNewTokens sampleConfigBoth []
      (sampleTrackerRemote 60000 [sampleTrackerRecord "A" 1, sampleTrackerRecord "A" 2])).2 =
      [sampleTracked "A" 1, sampleTracked "A" 2] ∧
    shouldProcessToken sampleConfigBoth 60000 (sampleTracked "A" 2) = true ∧
    (sampleFailingEnv
      (sampleTrackerRemote 60000 [sampleTrackerRecord "A" 1, sampleTrackerRecord "A" 2])
      60000).delivers 0 = false ∧
    evaluatedTokens (checkForNewTokens (fun _ => "") sampleConfigBoth
      (sampleFailingEnv
        (sampleTrackerRemote 60000 [sampleTrackerRecord "A" 1, sampleTrackerRecord "A" 2]) 60000)
      { knownTokens := [], processedTokens := [], isRunning := false }).2 =
      [sampleTracked "A" 1] ∧
    sinkCalls (checkForNewTokens (fun _ => "") sampleConfigBoth
      (sampleFailingEnv
        (sampleTrackerRemote 60000 [sampleTrackerRecord "A" 1, sampleTrackerRecord "A" 2]) 60000)
      { knownTokens := [], processedTokens := [], isRunning := false }).2 =
      [sampleTracked "A" 1] := by
  have hnew := getNewTokens_two_tracked 60000 "A" "A" 1 2 (by norm_num) (by norm_num)
    (by norm_num) (by norm_num)
  have hq1 := sampleTracked_qualifies 60000 "A" 1 (by norm_num)
  have hq2 := sampleTracked_qualifies 60000 "A" 2 (by norm_num)
  have hm1 : (sampleTracked "A" 1).mint = "A" := rfl
  have hm2 : (sampleTracked "A" 2).mint = "A" := rfl
  refine ⟨hnew, hq2, rfl, ?_, ?_⟩
  · simp only [checkForNewTokens, hnew, sampleFailingEnv]
    simp [processLoop, processNewToken, hq1, hm1, hm2, setAdd, evaluatedTokens]
  · simp only [checkForNewTokens, hnew, sampleFailingEnv]
    simp [processLoop, processNewToken, hq1, hm1, hm2, setAdd, sinkCalls]

end FailureContainment

section FailureContainmentAmended

open TokenMonitor SolanaTokenBot

/-- C12 (amended): in one cycle over the new tokens `pre ++ ti :: post`, where
`ti` is reached unprocessed, qualifies, and its sink call fails: the cycle
returns; its events are those of the tokens before `ti`, then the evaluation of
`ti`, its one sink call and the logged error, then those of the loop over the
later tokens run from the processed set that holds `ti`'s mint; the sink is
called exactly once for `ti`'s mint; `ti`'s mint is recorded as processed;
every later token whose mint has not been processed when it is reached is
evaluated and, if it qualifies, sent; and the state, the tokens evaluated and
the sink calls are the same as with any other delivery outcomes. -/
theorem sink_failure_contained (flt : ℚ → String) (cfg : Config) (env : CycleEnv) (bot : Bot)
    (pre post : List Token) (ti : Token)
    (hsplit : (getNewTokens cfg bot.knownTokens env.remote).2 = pre ++ ti :: post)
    (hreach : ti.mint ∉ (processLoop flt cfg env 0 bot.processedTokens pre).1)
    (hq : shouldProcessToken cfg (env.clock pre.length) ti = true)
    (hfail : env.delivers pre.length = false) :
    (checkForNewTokens flt cfg env bot).2 =
      (processLoop flt cfg env 0 bot.processedTokens pre).2 ++
      ([Event.evaluated ti true,
        Event.sinkCall ti (formatTokenMessage flt (env.clock pre.length) ti) false,
        Event.errorLogged ti] ++
       (processLoop flt cfg env (pre.length + 1)
          (setAdd (processLoop flt cfg env 0 bot.processedTokens pre).1 ti.mint) post).2) ∧
    ti.mint ∈ (checkForNewTokens flt cfg env bot).1.processedTokens ∧
    (sinkCalls (checkForNewTokens flt cfg env bot).2).filter
      (fun u => decide (u.mint = ti.mint)) = [ti] ∧
    (∀ mid tj rest, post = mid ++ tj :: rest →
      tj.mint ∉ (processLoop flt cfg env (pre.length + 1)
          (setAdd (processLoop flt cfg env 0 bot.processedTokens pre).1 ti.mint) mid).1 →
      Event.evaluated tj (shouldProcessToken cfg (env.clock (pre.length + 1 + mid.length)) tj) ∈
        (checkForNewTokens flt cfg env bot).2 ∧
      (shouldProcessToken cfg (env.clock (pre.length + 1 + mid.length)) tj = true →
        Event.sinkCall tj (formatTokenMessage flt (env.clock (pre.length + 1 + mid.length)) tj)
          (env.delivers (pre.length + 1 + mid.length)) ∈
          (checkForNewTokens flt cfg env bot).2)) ∧
    (∀ env2 : CycleEnv, env2.remote = env.remote → env2.clock = env.clock →
      (checkForNewTokens flt cfg env2 bot).1 = (checkForNewTokens flt cfg env bot).1 ∧
      evaluatedTokens (checkForNewTokens flt cfg env2 bot).2 =
        evaluatedTokens (checkForNewTokens flt cfg env bot).2 ∧
      sinkCalls (checkForNewTokens flt cfg env2 bot).2 =
        sinkCalls (checkForNewTokens flt cfg env bot).2) := by
  have hat := processLoop_at flt cfg env pre post ti 0 bot.processedTokens hreach
  simp only [Nat.zero_add] at hat
  have hpn : processNewToken flt cfg (env.clock pre.length) (env.delivers pre.length) ti =
      [Event.evaluated ti true,
       Event.sinkCall ti (formatTokenMessage flt (env.clock pre.length) ti) false,
       Event.errorLogged ti] := by
    simp [processNewToken, hq, hfail]
  have hev : (checkForNewTokens flt cfg env bot).2 =
      (processLoop flt cfg env 0 bot.processedTokens pre).2 ++
      ([Event.evaluated ti true,
        Event.sinkCall ti (formatTokenMessage flt (env.clock pre.length) ti) false,
        Event.errorLogged ti] ++
       (processLoop flt cfg env (pre.length + 1)
          (setAdd (processLoop flt cfg env 0 bot.processedTokens pre).1 ti.mint) post).2) := by
    simp only [checkForNewTokens, hsplit, hat, hpn]
  have hspec := processLoop_spec flt cfg env (getNewTokens cfg bot.knownTokens env.remote).2
    0 bot.processedTokens
  have hsink := checkForNewTokens_sinkCalls flt cfg env bot
  refine ⟨hev, ?_, ?_, ?_, ?_⟩
  · exact hspec.2.1 ti (by rw [hsplit]; simp)
  · apply filter_mint_eq_singleton _ _ hsink.2.2
    apply mem_sinkCalls_of_event _ ti (formatTokenMessage flt (env.clock pre.length) ti) false
    rw [hev]
    simp
  · intro mid tj rest hpost hnot
    have hat2 := processLoop_at flt cfg env mid rest tj (pre.length + 1)
      (setAdd (processLoop flt cfg env 0 bot.processedTokens pre).1 ti.mint) hnot
    have hmem : ∀ e ∈ processNewToken flt cfg (env.clock (pre.length + 1 + mid.length))
        (env.delivers (pre.length + 1 + mid.length)) tj,
        e ∈ (checkForNewTokens flt cfg env bot).2 := by
      intro e he
      rw [hev, hpost, hat2]
      simp only [List.mem_append]
      exact Or.inr (Or.inr (Or.inr (Or.inl he)))
    exact ⟨hmem _ (evaluated_mem_processNewToken flt cfg _ _ tj),
      fun hq2 => hmem _ (sinkCall_mem_processNewToken flt cfg _ _ tj hq2)⟩
  · intro env2 hremote hclock
    obtain ⟨h1, h2, h3⟩ := processLoop_delivers_irrelevant flt cfg env env2 hclock
      (getNewTokens cfg bot.knownTokens env.remote).2 0 bot.processedTokens
    simp only [checkForNewTokens, hremote]
    exact ⟨by rw [h1], h2, h3⟩

/-- C12 (amended), at a concrete input: the Tracker reports `A` and `B`, the
sink fails for `A` (and for `B`); both are evaluated and sent once. -/
theorem sink_failure_contained_witness :
    (sinkCalls (checkForNewTokens (fun _ => "") sampleConfigBoth
      (sampleFailingEnv
        (sampleTrackerRemote 60000 [sampleTrackerRecord "A" 1, sampleTrackerRecord "B" 2]) 60000)
      { knownTokens := [], processedTokens := [], isRunning := false }).2).filter
      (fun u => decide (u.mint = (sampleTracked "A" 1).mint)) = [sampleTracked "A" 1] ∧
    Event.sinkCall (sampleTracked "B" 2)
      (formatTokenMessage (fun _ => "") 60000 (sampleTracked "B" 2)) false ∈
      (checkForNewTokens (fun _ => "") sampleConfigBoth
        (sampleFailingEnv
          (sampleTrackerRemote 60000 [sampleTrackerRecord "A" 1, sampleTrackerRecord "B" 2])
          60000)
        { knownTokens := [], processedTokens := [], isRunning := false }).2 := by
  have h := sink_failure_contained (fun _ => "") sampleConfigBoth
    (sampleFailingEnv
      (sampleTrackerRemote 60000 [sampleTrackerRecord "A" 1, sampleTrackerRecord "B" 2]) 60000)
    { knownTokens := [], processedTokens := [], isRunning := false }
    [] [sampleTracked "B" 2] (sampleTracked "A" 1)
    (getNewTokens_two_tracked 60000 "A" "B" 1 2 (by norm_num) (by norm_num) (by norm_num)
      (by norm_num))
    (by simp [processLoop])
    (sampleTracked_qualifies 60000 "A" 1 (by norm_num))
    rfl
  refine ⟨h.2.2.1, ?_⟩
  have h4 := h.2.2.2.1 [] (sampleTracked "B" 2) [] rfl
    (by simp [processLoop, setAdd, sampleTracked])
  exact h4.2 (sampleTracked_qualifies 60000 "B" 2 (by norm_num))

end FailureContainmentAmended

/-! ## End to end -/

section EndToEnd

open TokenMonitor SolanaTokenBot

theorem getNewTokens_rugged_then_tracked (now : ℚ) (m1 m2 : String) (c1 c2 : ℚ)
    (h1 : c1 ≠ 0) (h2 : c2 ≠ 0) (f1 : now - c1 * 1000 ≤ 300000)
    (f2 : now - c2 * 1000 ≤ 300000) :
    (getNewTokens sampleConfigBoth []
      (sampleTrackerRemote now [sampleRuggedRecord m1 c1, sampleTrackerRecord m2 c2])).2 =
      [{ sampleTracked m1 c1 with risky := true }, sampleTracked m2 c2] := by
  have hagg : (aggregate sampleConfigBoth
      (sampleTrackerRemote now [sampleRuggedRecord m1 c1, sampleTrackerRecord m2 c2])).candidates
      = [{ sampleTracked m1 c1 with risky := true }, sampleTracked m2 c2] := by
    rw [aggregate_candidates]
    simp [getTokensFromTracker, getTokensFromHelius, sampleTrackerRemote, sampleRemote,
      sampleConfigBoth, sampleConfig, truthyStr, mapThrowing, parse_sampleTrackerRecord, h2]
    simp [parseTrackerToken, sampleRuggedRecord, sampleTrackerRecord, sampleTracked, truthyNum,
      orZero, assessRisk, h1]
  unfold getNewTokens
  rw [hagg, noveltyFilter_snd]
  have e : (sampleTrackerRemote now
      [sampleRuggedRecord m1 c1, sampleTrackerRecord m2 c2]).now = now := rfl
  have f1b : isTokenNew sampleConfigBoth now { sampleTracked m1 c1 with risky := true } = true :=
    sampleTracked_fresh now m1 c1 f1
  simp [e, f1b, sampleTracked_fresh now m2 c2 f2]

/-- C14 (as stated, refuted): the Tracker reports two records of mint `X`, the
first flagged rugged, the second meeting every threshold.  The second is a
candidate whose mint is neither known nor processed and which satisfies the
qualification predicate, yet the cycle makes no sink call at all. -/
theorem qualifying_candidate_not_notified :
    sampleTracked "X" 2 ∈ (aggregate sampleConfigBoth
      (sampleTrackerRemote 60000 [sampleRuggedRecord "X" 1, sampleTrackerRecord "X" 2])).candidates ∧
    (sampleTracked "X" 2).mint ∉ ([] : List String) ∧
    shouldProcessToken sampleConfigBoth 60000 (sampleTracked "X" 2) = true ∧
    sinkCalls (checkForNewTokens (fun _ => "") sampleConfigBoth
      (sampleEnv
        (sampleTrackerRemote 60000 [sampleRuggedRecord "X" 1, sampleTrackerRecord "X" 2]) 60000)
      { knownTokens := [], processedTokens := [], isRunning := false }).2 = [] := by
  have hnew := getNewTokens_rugged_then_tracked 60000 "X" "X" 1 2 (by norm_num) (by norm_num)
    (by norm_num) (by norm_num)
  have hq2 := sampleTracked_qualifies 60000 "X" 2 (by norm_num)
  refine ⟨?_, by simp, hq2, ?_⟩
  · have hmem : sampleTracked "X" 2 ∈ (getNewTokens sampleConfigBoth []
        (sampleTrackerRemote 60000 [sampleRuggedRecord "X" 1, sampleTrackerRecord "X" 2])).2 := by
      rw [hnew]; simp
    exact ((mem_noveltyFilter _ _ _ _ _).mp hmem).1
  · simp only [checkForNewTokens, hnew, sampleEnv]
    simp [processLoop, processNewToken, shouldProcessToken, setAdd, sinkCalls, sampleTracked]

theorem processLoop_fst_subset (flt : ℚ → String) (cfg : Config) (env : CycleEnv)
    (tokens : List Token) :
    ∀ (i : Nat) (processed : List String) (m : String),
      m ∈ (processLoop flt cfg env i processed tokens).1 →
      m ∈ processed ∨ ∃ u ∈ tokens, u.mint = m := by
  induction tokens with
  | nil =>
    intro i processed m hm
    rw [processLoop_nil] at hm
    exact Or.inl hm
  | cons t rest ih =>
    intro i processed m hm
    by_cases h : t.mint ∈ processed
    · rw [processLoop_cons_seen flt cfg env i processed t rest h] at hm
      rcases ih (i + 1) processed m hm with hp | ⟨u, hu, hmint⟩
      · exact Or.inl hp
      · exact Or.inr ⟨u, List.mem_cons_of_mem _ hu, hmint⟩
    · rw [processLoop_cons_fresh flt cfg env i processed t rest h] at hm
      rcases ih (i + 1) (setAdd processed t.mint) m hm with hp | ⟨u, hu, hmint⟩
      · rcases (mem_setAdd _ _ _).mp hp with hp | hp
        · exact Or.inl hp
        · exact Or.inr ⟨t, List.mem_cons_self _ _, hp.symm⟩
      · exact Or.inr ⟨u, List.mem_cons_of_mem _ hu, hmint⟩

/-- C14 (amended): in a cycle, take a candidate `t` that is the first record of
its mint in the candidate list `cpre ++ t :: cpost`, whose mint is neither in
the Known-Set nor in the processed set and whose age is within the window at
the filter pass.  It is handed to `processNewToken` at its position among the
returned tokens; if it satisfies the qualification predicate at the clock
reading of that position, the sink receives exactly one call for it in the
cycle, carrying the text of `formatTokenMessage` (and none if it does not); in
every later sequence of cycles, whatever they receive, no sink call is made for
its mint. -/
theorem qualifying_candidate_notified_once (flt : ℚ → String) (cfg : Config) (env : CycleEnv)
    (bot : Bot) (cpre cpost : List Token) (t : Token)
    (hsplit : (aggregate cfg env.remote).candidates = cpre ++ t :: cpost)
    (hfirst : ∀ u ∈ cpre, u.mint ≠ t.mint)
    (hknown : t.mint ∉ bot.knownTokens) (hproc : t.mint ∉ bot.processedTokens)
    (hfresh : env.remote.now - t.createdTime ≤ cfg.maxAgeMinutes * 60 * 1000) :
    Event.evaluated t (shouldProcessToken cfg
        (env.clock (noveltyFilter cfg bot.knownTokens env.remote.now cpre).2.length) t) ∈
      (checkForNewTokens flt cfg env bot).2 ∧
    (shouldProcessToken cfg
        (env.clock (noveltyFilter cfg bot.knownTokens env.remote.now cpre).2.length) t = true →
      Event.sinkCall t
        (formatTokenMessage flt
          (env.clock (noveltyFilter cfg bot.knownTokens env.remote.now cpre).2.length) t)
        (env.delivers (noveltyFilter cfg bot.knownTokens env.remote.now cpre).2.length) ∈
        (checkForNewTokens flt cfg env bot).2) ∧
    (sinkCalls (checkForNewTokens flt cfg env bot).2).filter
        (fun u => decide (u.mint = t.mint)) =
      (if shouldProcessToken cfg
          (env.clock (noveltyFilter cfg bot.knownTokens env.remote.now cpre).2.length) t = true
       then [t] else []) ∧
    (∀ envs : List CycleEnv,
      (sinkCalls (runCycles flt cfg envs (checkForNewTokens flt cfg env bot).1).2).filter
        (fun u => decide (u.mint = t.mint)) = []) := by
  have hpass : (!(decide (t.mint ∈ bot.knownTokens)) && isTokenNew cfg env.remote.now t)
      = true := by
    simp [hknown, isTokenNew, hfresh]
  have hnew : (getNewTokens cfg bot.knownTokens env.remote).2 =
      (noveltyFilter cfg bot.knownTokens env.remote.now cpre).2 ++
        t :: (noveltyFilter cfg bot.knownTokens env.remote.now cpost).2 := by
    unfold getNewTokens
    rw [hsplit]
    simp only [noveltyFilter_snd, List.filter_append, List.filter_cons, hpass, if_true]
  have hpre_ne : ∀ u ∈ (noveltyFilter cfg bot.knownTokens env.remote.now cpre).2,
      u.mint ≠ t.mint := fun u hu =>
    hfirst u ((mem_noveltyFilter _ _ _ _ u).mp hu).1
  have hreach : t.mint ∉ (processLoop flt cfg env 0 bot.processedTokens
      (noveltyFilter cfg bot.knownTokens env.remote.now cpre).2).1 := by
    intro hin
    rcases processLoop_fst_subset flt cfg env _ 0 bot.processedTokens t.mint hin with
      hp | ⟨u, hu, hmint⟩
    · exact hproc hp
    · exact hpre_ne u hu hmint
  have hat := processLoop_at flt cfg env
    (noveltyFilter cfg bot.knownTokens env.remote.now cpre).2
    (noveltyFilter cfg bot.knownTokens env.remote.now cpost).2 t 0 bot.processedTokens hreach
  simp only [Nat.zero_add] at hat
  have hev : (checkForNewTokens flt cfg env bot).2 =
      (processLoop flt cfg env 0 bot.processedTokens
        (noveltyFilter cfg bot.knownTokens env.remote.now cpre).2).2 ++
      (processNewToken flt cfg
          (env.clock (noveltyFilter cfg bot.knownTokens env.remote.now cpre).2.length)
          (env.delivers (noveltyFilter cfg bot.knownTokens env.remote.now cpre).2.length) t ++
        (processLoop flt cfg env
          ((noveltyFilter cfg bot.knownTokens env.remote.now cpre).2.length + 1)
          (setAdd (processLoop flt cfg env 0 bot.processedTokens
            (noveltyFilter cfg bot.knownTokens env.remote.now cpre).2).1 t.mint)
          (noveltyFilter cfg bot.knownTokens env.remote.now cpost).2).2) := by
    simp only [checkForNewTokens, hnew, hat]
  have hmem : ∀ e ∈ processNewToken flt cfg
      (env.clock (noveltyFilter cfg bot.knownTokens env.remote.now cpre).2.length)
      (env.delivers (noveltyFilter cfg bot.knownTokens env.remote.now cpre).2.length) t,
      e ∈ (checkForNewTokens flt cfg env bot).2 := by
    intro e he
    rw [hev]
    exact List.mem_append_right _ (List.mem_append_left _ he)
  have hspecPre := processLoop_spec flt cfg env
    (noveltyFilter cfg bot.knownTokens env.remote.now cpre).2 0 bot.processedTokens
  have hspecPost := processLoop_spec flt cfg env
    (noveltyFilter cfg bot.knownTokens env.remote.now cpost).2
    ((noveltyFilter cfg bot.knownTokens env.remote.now cpre).2.length + 1)
    (setAdd (processLoop flt cfg env 0 bot.processedTokens
      (noveltyFilter cfg bot.knownTokens env.remote.now cpre).2).1 t.mint)
  have hfpre : (sinkCalls (processLoop flt cfg env 0 bot.processedTokens
      (noveltyFilter cfg bot.knownTokens env.remote.now cpre).2).2).filter
      (fun u => decide (u.mint = t.mint)) = [] := by
    rw [List.filter_eq_nil_iff]
    intro u hu hmint
    have hue := hspecPre.2.2.2.2.2.subset hu
    have hin := List.mem_of_find?_eq_some (hspecPre.2.2.1 u hue).2
    exact hpre_ne u hin (by simpa using hmint)
  have hfpost : (sinkCalls (processLoop flt cfg env
      ((noveltyFilter cfg bot.knownTokens env.remote.now cpre).2.length + 1)
      (setAdd (processLoop flt cfg env 0 bot.processedTokens
        (noveltyFilter cfg bot.knownTokens env.remote.now cpre).2).1 t.mint)
      (noveltyFilter cfg bot.knownTokens env.remote.now cpost).2).2).filter
      (fun u => decide (u.mint = t.mint)) = [] := by
    rw [List.filter_eq_nil_iff]
    intro u hu hmint
    have hue := hspecPost.2.2.2.2.2.subset hu
    have hnot := (hspecPost.2.2.1 u hue).1
    exact hnot ((mem_setAdd _ _ _).mpr (Or.inr (by simpa using hmint)))
  have hin : t.mint ∈ (checkForNewTokens flt cfg env bot).1.processedTokens := by
    have h2 := (processLoop_spec flt cfg env (getNewTokens cfg bot.knownTokens env.remote).2
      0 bot.processedTokens).2.1
    exact h2 t (by rw [hnew]; simp)
  refine ⟨hmem _ (evaluated_mem_processNewToken flt cfg _ _ t),
    fun hq => hmem _ (sinkCall_mem_processNewToken flt cfg _ _ t hq), ?_, ?_⟩
  · rw [hev]
    simp only [sinkCalls_append, List.filter_append, hfpre, hfpost, sinkCalls_processNewToken,
      List.nil_append, List.append_nil]
    split_ifs <;> simp
  · intro envs
    rw [List.filter_eq_nil_iff]
    intro u hu hmint
    have hnot := (runCycles_sinkCalls flt cfg envs (checkForNewTokens flt cfg env bot).1).1 u hu
    have hum : u.mint = t.mint := by simpa using hmint
    exact hnot (hum ▸ hin)

/-- C14 (amended), at the input of the scenario: empty Known-Set, the candidate
`X` created two minutes before `now` with liquidity 5000 and market cap 50000,
not risky, thresholds 5, 1000 and 10000, the clock reading `now` while `X` is
processed and much later afterwards: one sink call for `X` in the cycle, none
in a second cycle receiving the same candidate. -/
theorem qualifying_candidate_notified_once_witness :
    (sinkCalls (checkForNewTokens (fun _ => "") sampleConfigBoth
      (sampleLateEnv (sampleTrackerRemote 180000 [sampleTrackerRecord "X" 60]) 180000)
      { knownTokens := [], processedTokens := [], isRunning := false }).2).filter
      (fun u => decide (u.mint = (sampleTracked "X" 60).mint)) = [sampleTracked "X" 60] ∧
    (sinkCalls (runCycles (fun _ => "") sampleConfigBoth
      [sampleLateEnv (sampleTrackerRemote 180000 [sampleTrackerRecord "X" 60]) 180000]
      (checkForNewTokens (fun _ => "") sampleConfigBoth
        (sampleLateEnv (sampleTrackerRemote 180000 [sampleTrackerRecord "X" 60]) 180000)
        { knownTokens := [], processedTokens := [], isRunning := false }).1).2).filter
      (fun u => decide (u.mint = (sampleTracked "X" 60).mint)) = [] ∧
    (180000 : ℚ) - (sampleTracked "X" 60).createdTime = 2 * 60 * 1000 ∧
    shouldProcessToken sampleConfigBoth
      ((sampleLateEnv (sampleTrackerRemote 180000 [sampleTrackerRecord "X" 60]) 180000).clock 1)
      (sampleTracked "X" 60) = false := by
  have h := qualifying_candidate_notified_once (fun _ => "") sampleConfigBoth
    (sampleLateEnv (sampleTrackerRemote 180000 [sampleTrackerRecord "X" 60]) 180000)
    { knownTokens := [], processedTokens := [], isRunning := false } [] []
    (sampleTracked "X" 60)
    (aggregate_one_tracked 180000 "X" 60 (by norm_num))
    (by simp) (by simp) (by simp)
    (by simp [sampleLateEnv, sampleTrackerRemote, sampleRemote, sampleTracked, sampleConfigBoth,
          sampleConfig]; norm_num)
  have hq : shouldProcessToken sampleConfigBoth
      ((sampleLateEnv (sampleTrackerRemote 180000 [sampleTrackerRecord "X" 60]) 180000).clock
        (noveltyFilter sampleConfigBoth
          ({ knownTokens := [], processedTokens := [], isRunning := false } : Bot).knownTokens
          (sampleLateEnv (sampleTrackerRemote 180000 [sampleTrackerRecord "X" 60])
            180000).remote.now []).2.length)
      (sampleTracked "X" 60) = true :=
    sampleTracked_qualifies 180000 "X" 60 (by norm_num)
  have h3 := h.2.2.1
  rw [if_pos hq] at h3
  refine ⟨h3, h.2.2.2 _, ?_, ?_⟩
  · simp [sampleTracked]
    norm_num
  · simp [shouldProcessToken, sampleLateEnv, sampleTracked, sampleConfigBoth, sampleConfig]
    norm_num

end EndToEnd

end SolTerminal
